import Mathlib

/-!
# fitGenerator: route closing, lap expansion, distance trace and activity synthesis

A shallow embedding of `src/server.js`.

* JavaScript numbers are modelled by an arbitrary linearly ordered field `K` with a floor
  function (`ℚ` for evaluation, `ℝ` for the genuine trigonometric functions).  Arithmetic is
  therefore exact: rounding, `NaN` and the infinities of IEEE doubles are outside the model,
  except at the request boundary (`JsNum`), where `Number(...)` of a body field may be
  `NaN` or `±Infinity`.
* `Math.sin`, `Math.cos`, `Math.sqrt`, `Math.atan2` and `Math.PI` are parameters, bundled in
  `MathFns`.  The few facts about them that proofs need are collected in `MathFns.Lawful`,
  and `OnReals` instantiates them with Mathlib's real functions.
* `Math.random()` is a stream `rnd : ℕ → K`; the `k`-th call of a function returns `rnd k`.
* Arrays are lists.  Reading `distances[i]` is `List.getD _ i 0`.
-/

namespace FitGenerator

/-! ## The numeric environment -/

/-- Functions of the JavaScript `Math` object used by the server. -/
structure MathFns (K : Type) where
  sin : K → K
  cos : K → K
  sqrt : K → K
  atan2 : K → K → K
  pi : K

/-- Facts about the `Math` functions used in proofs; all hold for the real functions. -/
structure MathFns.Lawful {K : Type} [LinearOrderedField K] (M : MathFns K) : Prop where
  sin_zero : M.sin 0 = 0
  sqrt_zero : M.sqrt 0 = 0
  sqrt_nonneg : ∀ x, 0 ≤ M.sqrt x
  atan2_zero : ∀ x, 0 ≤ x → M.atan2 0 x = 0
  atan2_nonneg : ∀ y x, 0 ≤ y → 0 ≤ M.atan2 y x

/-- Further facts about the `Math` functions, used for the speed and the lap noise: the sine
is at least -1, the Pythagorean identity, and the square root of a square. -/
structure MathFns.TrigLawful {K : Type} [LinearOrderedField K] (M : MathFns K) : Prop where
  neg_one_le_sin : ∀ x, -1 ≤ M.sin x
  sin_sq_add_cos_sq : ∀ x, M.sin x * M.sin x + M.cos x * M.cos x = 1
  sqrt_mul_self : ∀ x, 0 ≤ x → M.sqrt (x * x) = x

/-- A property of the program run with the real `sin`, `cos`, `sqrt`, `atan2` and `π`.
`Math.atan2 y x` is the argument of the complex number `x + y i`. -/
def OnReals (P : MathFns ℝ → Prop) : Prop :=
  P ⟨Real.sin, Real.cos, Real.sqrt, fun y x => Complex.arg ⟨x, y⟩, Real.pi⟩

/-- The value of `Number(v)` for a field `v` of the request body. -/
inductive JsNum (K : Type) where
  | nan : JsNum K
  | negInf : JsNum K
  | posInf : JsNum K
  | fin (x : K) : JsNum K
deriving DecidableEq, Repr

section Defs

variable {K : Type} [LinearOrderedField K] [FloorRing K]

/-- The function `Math.round`: the nearest integer, halves rounded up. -/
def jsRound (x : K) : K := ((⌊x + 1 / 2⌋ : ℤ) : K)

/-- The function `Math.floor`. -/
def jsFloor (x : K) : K := ((⌊x⌋ : ℤ) : K)

/-! ## CONSTANTS -/

namespace CONSTANTS

def SEMICIRCLE_FACTOR : K := 2147483648 / 180
def EARTH_RADIUS_METERS : K := 6371000
def METERS_PER_DEG_LAT : K := 111320
def REST_DEFAULT : K := 60
def MAX_DEFAULT : K := 180
def DEFAULT_SECONDS_PER_KM : K := 360
def LAP_MIN_COUNT : K := 1
def LAP_DEFAULT_COUNT : K := 1
def MIN_POINTS : ℕ := 2
def CLOSED_THRESHOLD_METERS : K := 5
def NOISE_RADIUS_MIN : K := 5
def NOISE_RADIUS_MAX : K := 10
def BASE_SPEED_FACTOR_MIN : K := 0.98
def BASE_SPEED_FACTOR_RANGE : K := 0.06
def PREVIEW_MIN_SAMPLES : ℕ := 0

end CONSTANTS

open CONSTANTS

/-! ## Geometry -/

/-- A geographic point `{ lat, lng }` in degrees. -/
structure Point (K : Type) where
  lat : K
  lng : K
deriving DecidableEq, Repr

/-- Source function `toSemicircles(deg)`. -/
def toSemicircles (deg : K) : K := jsRound (deg * SEMICIRCLE_FACTOR)

/-- The local `toRad` of `haversineDistance`. -/
def toRad (M : MathFns K) (d : K) : K := (d * M.pi) / 180

/-- Source function `haversineDistance(lat1, lon1, lat2, lon2)`. -/
def haversineDistance (M : MathFns K) (lat1 lon1 lat2 lon2 : K) : K :=
  let dLat := toRad M (lat2 - lat1)
  let dLon := toRad M (lon2 - lon1)
  let a :=
    M.sin (dLat / 2) * M.sin (dLat / 2) +
      M.cos (toRad M lat1) * M.cos (toRad M lat2) * M.sin (dLon / 2) * M.sin (dLon / 2)
  let c := 2 * M.atan2 (M.sqrt a) (M.sqrt (1 - a))
  EARTH_RADIUS_METERS * c

/-- Source function `offsetPointMeters(point, offsetLatMeters, offsetLonMeters)`. -/
def offsetPointMeters (M : MathFns K) (point : Point K) (offsetLatMeters offsetLonMeters : K) :
    Point K :=
  let metersPerDegLon := METERS_PER_DEG_LAT * M.cos ((point.lat * M.pi) / 180)
  { lat := point.lat + offsetLatMeters / METERS_PER_DEG_LAT
    lng := point.lng + offsetLonMeters / metersPerDegLon }

/-- Source function `buildClosedBasePoints(points)`, for an array `points`. -/
def buildClosedBasePoints (M : MathFns K) (points : List (Point K)) : List (Point K) :=
  if h : points.length < 2 then points
  else
    let first := points[0]
    let last := points[points.length - 1]
    let d := haversineDistance M first.lat first.lng last.lat last.lng
    if d < CLOSED_THRESHOLD_METERS then points
    else points ++ [{ lat := first.lat, lng := first.lng }]

/-! ## Lap expansion -/

/-- The local `usedLaps` of both lap-expansion functions. -/
def usedLaps (laps : K) : K := if laps > 0 then laps else LAP_DEFAULT_COUNT

/-- Number of iterations of `for (lapIndex = 0; lapIndex < usedLaps; lapIndex++)`. -/
def lapIterations (laps : K) : ℕ := ⌈usedLaps laps⌉₊

/-- Source function `computeRoutePoints(basePoints, laps)`. -/
def computeRoutePoints (basePoints : List (Point K)) (laps : K) : List (Point K) :=
  ((List.range (lapIterations laps)).map fun _ => basePoints).flatten

/-- The points pushed during lap `lapIndex` of `computeRoutePointsWithNoise`; the lap draws
`rnd (2 * lapIndex)` for the radius and `rnd (2 * lapIndex + 1)` for the angle. -/
def noisyLap (M : MathFns K) (basePoints : List (Point K)) (laps : K) (rnd : ℕ → K)
    (lapIndex : ℕ) : List (Point K) :=
  let radiusMeters := NOISE_RADIUS_MIN + rnd (2 * lapIndex) * (NOISE_RADIUS_MAX - NOISE_RADIUS_MIN)
  let angle := rnd (2 * lapIndex + 1) * M.pi * 2
  let offsetLatMeters := radiusMeters * M.cos angle
  let offsetLonMeters := radiusMeters * M.sin angle
  basePoints.map fun p =>
    if usedLaps laps = 1 then p else offsetPointMeters M p offsetLatMeters offsetLonMeters

/-- Source function `computeRoutePointsWithNoise(basePoints, laps)`; it consumes
`2 * lapIterations laps` random draws. -/
def computeRoutePointsWithNoise (M : MathFns K) (basePoints : List (Point K)) (laps : K)
    (rnd : ℕ → K) : List (Point K) :=
  ((List.range (lapIterations laps)).map (noisyLap M basePoints laps rnd)).flatten

/-! ## Distance trace -/

/-- The loop of `computeDistancesAndTotal` from the point after `prev` on: the entries pushed
to `distances`, and the final `totalDist`. -/
def distLoop (M : MathFns K) : Point K → K → List (Point K) → List K × K
  | _, totalDist, [] => ([], totalDist)
  | prev, totalDist, p :: ps =>
    let d := haversineDistance M prev.lat prev.lng p.lat p.lng
    let r := distLoop M p (totalDist + d) ps
    ((totalDist + d) :: r.1, r.2)

/-- Result of `computeDistancesAndTotal`. -/
structure DistResult (K : Type) where
  distances : List K
  totalDist : K

/-- Source function `computeDistancesAndTotal(allPoints)`. -/
def computeDistancesAndTotal (M : MathFns K) (allPoints : List (Point K)) : DistResult K :=
  match allPoints with
  | [] => { distances := [0], totalDist := 0 }
  | p :: ps =>
    let r := distLoop M p 0 ps
    { distances := 0 :: r.1, totalDist := r.2 }

/-! ## Activity synthesis -/

/-- One element of `samples`. -/
structure Sample (K : Type) where
  timeSec : K
  distance : K
  speed : K
  heartRate : K
  lat : K
  lng : K
deriving DecidableEq, Repr

/-- Result of `computeSamples`. -/
structure SamplesResult (K : Type) where
  samples : List (Sample K)
  totalDurationSec : K

/-- The local `targetDurationSec` of `computeSamples`. -/
def targetDurationSec (totalDist paceSecondsPerKm : K) : K :=
  let totalDistanceKm := totalDist / 1000
  totalDistanceKm * paceSecondsPerKm

/-- The local `avgSpeedTarget` of `computeSamples`. -/
def avgSpeedTarget (totalDist paceSecondsPerKm : K) : K :=
  totalDist / targetDurationSec totalDist paceSecondsPerKm

/-- The local `baseSpeedFactor`: the first random draw of `computeSamples`. -/
def baseSpeedFactor (rnd : ℕ → K) : K :=
  BASE_SPEED_FACTOR_MIN + rnd 0 * BASE_SPEED_FACTOR_RANGE

/-- The local `frac` of the first loop at index `i`. -/
def fracAt (distances : List K) (totalDist : K) (i : ℕ) : K :=
  distances.getD i 0 / totalDist

/-- The value stored in `instSpeedRaw[i]`; `phase1` and `phase2` are the second and third
random draws. -/
def instSpeedRaw (M : MathFns K) (distances : List K) (totalDist paceSecondsPerKm : K)
    (rnd : ℕ → K) (i : ℕ) : K :=
  let phase1 := rnd 1 * M.pi * 2
  let phase2 := rnd 2 * M.pi * 2
  let frac := fracAt distances totalDist i
  let longWave := 0.04 * M.sin (frac * M.pi * 2 + phase1)
  let shortWave := 0.02 * M.sin (frac * M.pi * 6 + phase2)
  avgSpeedTarget totalDist paceSecondsPerKm * baseSpeedFactor rnd * (1 + longWave + shortWave)

/-- The local `effort` for a raw speed. -/
def effortOf (totalDist paceSecondsPerKm speedRaw : K) : K :=
  let avg := avgSpeedTarget totalDist paceSecondsPerKm
  min 1 (max 0 (speedRaw / (if avg = 0 then 1e-6 else avg)))

/-- The local `intensityBase` for a route fraction. -/
def intensityBaseOf (M : MathFns K) (frac : K) : K :=
  if frac < 0.1 then
    let f := frac / 0.1
    0.4 + 0.4 * f
  else if frac < 0.8 then
    let f := (frac - 0.1) / 0.7
    0.8 + 0.05 * M.sin (f * M.pi * 2)
  else
    let f := (frac - 0.8) / 0.2
    0.85 + 0.1 * f

/-- The local `hrTarget` at index `i`. -/
def hrTargetAt (M : MathFns K) (distances : List K)
    (totalDist paceSecondsPerKm hrRestVal hrMaxVal : K) (rnd : ℕ → K) (i : ℕ) : K :=
  let speedRaw := instSpeedRaw M distances totalDist paceSecondsPerKm rnd i
  let effort := effortOf totalDist paceSecondsPerKm speedRaw
  let intensityBase := intensityBaseOf M (fracAt distances totalDist i)
  let intensity := min 1 (max 0 (0.7 * intensityBase + 0.3 * effort))
  hrRestVal + (hrMaxVal - hrRestVal) * intensity

/-- The heart-rate part of the first loop of `computeSamples`, run over the indices `is` with
the smoothing state `currentHr`; iteration `i` draws `rnd (3 + i)` for the jitter. -/
def hrLoop (M : MathFns K) (distances : List K)
    (totalDist paceSecondsPerKm hrRestVal hrMaxVal : K) (rnd : ℕ → K) :
    List ℕ → K → List K
  | [], _ => []
  | i :: is, currentHr =>
    let hrTarget := hrTargetAt M distances totalDist paceSecondsPerKm hrRestVal hrMaxVal rnd i
    let currentHr := currentHr + (hrTarget - currentHr) * 0.15
    let hrJitter := (rnd (3 + i) - 0.5) * 3
    let hrValue := jsRound (min hrMaxVal (max hrRestVal (currentHr + hrJitter)))
    hrValue :: hrLoop M distances totalDist paceSecondsPerKm hrRestVal hrMaxVal rnd is currentHr

/-- The array `hrValues` for `n` points. -/
def hrValues (M : MathFns K) (distances : List K)
    (totalDist paceSecondsPerKm hrRestVal hrMaxVal : K) (rnd : ℕ → K) (n : ℕ) : List K :=
  hrLoop M distances totalDist paceSecondsPerKm hrRestVal hrMaxVal rnd (List.range n) hrRestVal

/-- The value stored in `segDurationsRaw[i - 1]` by the second loop, for `i ≥ 1`. -/
def segDurationRaw (M : MathFns K) (distances : List K) (totalDist paceSecondsPerKm : K)
    (rnd : ℕ → K) (i : ℕ) : K :=
  let ds := distances.getD i 0 - distances.getD (i - 1) 0
  let v :=
    if instSpeedRaw M distances totalDist paceSecondsPerKm rnd i > 0 then
      instSpeedRaw M distances totalDist paceSecondsPerKm rnd i
    else avgSpeedTarget totalDist paceSecondsPerKm
  ds / v

/-- The local `rawDuration` after the second loop, which runs over `i = 1, ..., n - 1`. -/
def rawDuration (M : MathFns K) (distances : List K) (totalDist paceSecondsPerKm : K)
    (rnd : ℕ → K) (n : ℕ) : K :=
  (List.range' 1 (n - 1)).foldl
    (fun acc i => acc + segDurationRaw M distances totalDist paceSecondsPerKm rnd i) 0

/-- The local `scale`. -/
def scale (M : MathFns K) (distances : List K) (totalDist paceSecondsPerKm : K)
    (rnd : ℕ → K) (n : ℕ) : K :=
  if rawDuration M distances totalDist paceSecondsPerKm rnd n > 0 then
    targetDurationSec totalDist paceSecondsPerKm /
      rawDuration M distances totalDist paceSecondsPerKm rnd n
  else 1

/-- The third loop of `computeSamples` from index `i` on, with elapsed time `t`, over the
points `allPoints[i], allPoints[i + 1], ...`. -/
def sampleLoop (M : MathFns K) (distances : List K)
    (totalDist paceSecondsPerKm : K) (rnd : ℕ → K) (hr : List K) (scl : K) :
    ℕ → K → List (Point K) → List (Sample K)
  | _, _, [] => []
  | i, t, p :: ps =>
    let dt := segDurationRaw M distances totalDist paceSecondsPerKm rnd i * scl
    let t := t + dt
    { timeSec := t
      distance := distances.getD i 0
      speed := instSpeedRaw M distances totalDist paceSecondsPerKm rnd i / scl
      heartRate := hr.getD i 0
      lat := p.lat
      lng := p.lng } ::
      sampleLoop M distances totalDist paceSecondsPerKm rnd hr scl (i + 1) t ps

/-- Source function `computeSamples(allPoints, distances, totalDist, paceSecondsPerKm,
hrRestVal, hrMaxVal)`.  It draws `rnd 0`, `rnd 1`, `rnd 2` and then one number per point.
The result is `none` when `allPoints` is empty, where reading `allPoints[0].lat` throws. -/
def computeSamples (M : MathFns K) (allPoints : List (Point K)) (distances : List K)
    (totalDist paceSecondsPerKm hrRestVal hrMaxVal : K) (rnd : ℕ → K) :
    Option (SamplesResult K) :=
  let n := allPoints.length
  let hr := hrValues M distances totalDist paceSecondsPerKm hrRestVal hrMaxVal rnd n
  let scl := scale M distances totalDist paceSecondsPerKm rnd n
  match allPoints with
  | [] => none
  | p0 :: rest =>
    let first : Sample K :=
      { timeSec := 0
        distance := distances.getD 0 0
        speed := instSpeedRaw M distances totalDist paceSecondsPerKm rnd 0 / scl
        heartRate := hr.getD 0 0
        lat := p0.lat
        lng := p0.lng }
    let samples :=
      first :: sampleLoop M distances totalDist paceSecondsPerKm rnd hr scl 1 0 rest
    some
      { samples := samples
        totalDurationSec := (samples.getLast (List.cons_ne_nil _ _)).timeSec }

/-! ## Request validation and parameters -/

/-- The parsed JSON body of a request.  `startTime` is `none` when the field is absent or
`null`; `points` is `none` when the field is absent or not an array; a numeric field holds
`Number(field)`, which is `NaN` when the field is absent. -/
structure Body (K : Type) where
  startTime : Option String
  points : Option (List (Point K))
  paceSecondsPerKm : JsNum K
  hrRest : JsNum K
  hrMax : JsNum K
  lapCount : JsNum K
  variantIndex : JsNum K

/-- Result of `validateRequest`: `{ valid: false, error }` or `{ valid: true, startDate }`,
the start date in milliseconds since the epoch. -/
inductive Validation where
  | invalid (error : String) : Validation
  | valid (startDate : ℤ) : Validation
deriving DecidableEq, Repr

/-- Source function `validateRequest(req, res)`.  `parseDate s` is `new Date(s).getTime()`,
`none` standing for `NaN`.  The argument `res` is never used by the source. -/
def validateRequest (parseDate : String → Option ℤ) (body : Body K) : Validation :=
  match body.startTime with
  | none => .invalid "缺少参数：需要 startTime"
  | some startTime =>
    if startTime = "" then .invalid "缺少参数：需要 startTime"
    else
      match body.points with
      | none => .invalid "缺少参数：需要至少 2 个轨迹点 points"
      | some points =>
        if points.length < MIN_POINTS then .invalid "缺少参数：需要至少 2 个轨迹点 points"
        else
          match parseDate startTime with
          | none => .invalid "startTime 格式不正确"
          | some startDate => .valid startDate

/-- The test `Number.isFinite(x)`. -/
def JsNum.isFinite : JsNum K → Bool
  | .fin _ => true
  | _ => false

/-- The comparison `x > c` of a JavaScript number with a finite constant. -/
def JsNum.gt : JsNum K → K → Bool
  | .fin x, c => decide (x > c)
  | .posInf, _ => true
  | _, _ => false

/-- The finite value of a JavaScript number that passed `Number.isFinite`. -/
def JsNum.finOr : JsNum K → K → K
  | .fin x, _ => x
  | _, d => d

/-- Result of `parseActivityParams`.  The pace may be `Infinity`; the other fields are
finite. -/
structure ActivityParams (K : Type) where
  paceSecondsPerKm : JsNum K
  hrRestVal : K
  hrMaxVal : K
  laps : K
  variant : K

/-- Source function `parseActivityParams(body)`. -/
def parseActivityParams (body : Body K) : ActivityParams K :=
  let paceSecondsPerKm :=
    if body.paceSecondsPerKm.gt 0 then body.paceSecondsPerKm
    else .fin DEFAULT_SECONDS_PER_KM
  let hrRestVal :=
    if body.hrRest.isFinite then body.hrRest.finOr REST_DEFAULT else REST_DEFAULT
  let hrMaxVal :=
    if body.hrMax.isFinite then body.hrMax.finOr MAX_DEFAULT else MAX_DEFAULT
  let lapsRaw := body.lapCount
  let laps :=
    if lapsRaw.isFinite && lapsRaw.gt (LAP_MIN_COUNT - 1) then
      jsFloor (lapsRaw.finOr LAP_DEFAULT_COUNT)
    else LAP_DEFAULT_COUNT
  let variantRaw := body.variantIndex
  let variant :=
    if variantRaw.isFinite && variantRaw.gt 0 then jsFloor (variantRaw.finOr 1) else 1
  { paceSecondsPerKm := paceSecondsPerKm
    hrRestVal := hrRestVal
    hrMaxVal := hrMaxVal
    laps := laps
    variant := variant }

/-! ## Encoding -/

/-- The value `new Date(ms)`: the time value truncated to whole milliseconds, or `none`
(an invalid date) beyond 8.64e15 milliseconds from the epoch. -/
def jsDate (ms : K) : Option ℤ :=
  if |ms| ≤ 8640000000000000 then some (if 0 ≤ ms then ⌊ms⌋ else ⌈ms⌉) else none

/-- A message handed to `encoder.onMesg`, by message number, with the fields that vary. -/
inductive Mesg (K : Type) where
  | FILE_ID (timeCreated : ℤ) : Mesg K
  | DEVICE_INFO (timestamp : ℤ) : Mesg K
  | SESSION (timestamp : Option ℤ) (startTime : ℤ)
      (totalElapsedTime totalTimerTime totalDistance avgSpeed : K) : Mesg K
  | ACTIVITY (timestamp : Option ℤ) (totalTimerTime : K) : Mesg K
  | RECORD (timestamp : Option ℤ) (positionLat positionLong distance speed heartRate : K) :
      Mesg K
deriving DecidableEq, Repr

/-- The record loop of `buildFitFile` over `samples[i]`, `allPoints[i]`; `none` when
`allPoints` is shorter than `samples`, where reading `allPoints[i].lat` throws. -/
def recordLoop (startDate : ℤ) : List (Sample K) → List (Point K) → Option (List (Mesg K))
  | [], _ => some []
  | _ :: _, [] => none
  | s :: ss, p :: ps =>
    let timestamp := jsDate ((startDate : K) + s.timeSec * 1000)
    (recordLoop startDate ss ps).map fun rest =>
      Mesg.RECORD timestamp (toSemicircles p.lat) (toSemicircles p.lng)
        s.distance s.speed s.heartRate :: rest

/-- Source function `buildFitFile(encoder, startDate, totalDist, totalDurationSec, samples,
allPoints)`: the messages passed to `encoder.onMesg`, in order. -/
def buildFitFile (startDate : ℤ) (totalDist totalDurationSec : K)
    (samples : List (Sample K)) (allPoints : List (Point K)) : Option (List (Mesg K)) :=
  let avgSpeed := totalDist / totalDurationSec
  let sessionEnd := jsDate ((startDate : K) + totalDurationSec * 1000)
  (recordLoop startDate samples allPoints).map fun records =>
    [ Mesg.FILE_ID startDate,
      Mesg.DEVICE_INFO startDate,
      Mesg.SESSION sessionEnd startDate totalDurationSec totalDurationSec totalDist avgSpeed,
      Mesg.ACTIVITY sessionEnd totalDurationSec ] ++ records

/-! ## Handlers -/

/-- What a handler writes to `res`. -/
inductive Response (K : Type) where
  | error (status : ℕ) (error : String) : Response K
  | preview (totalDistanceMeters totalDurationSec : K) (samples : List (Sample K)) :
      Response K
  | fit (variant : K) (messages : List (Mesg K)) : Response K
  | infinitePace : Response K
deriving DecidableEq, Repr

/-- The handler of `POST /api/preview`.  The result is `none` when the handler returns
without writing to `res`.  `Response.infinitePace` marks a run of `computeSamples` with
pace `Infinity`, whose IEEE arithmetic the field `K` does not represent. -/
def previewHandler (M : MathFns K) (parseDate : String → Option ℤ) (rnd : ℕ → K)
    (body : Body K) : Option (Response K) :=
  match validateRequest parseDate body with
  | .invalid _ => none
  | .valid _ =>
    let params := parseActivityParams body
    let basePoints := buildClosedBasePoints M (body.points.getD [])
    let allPoints := computeRoutePoints basePoints params.laps
    let dt := computeDistancesAndTotal M allPoints
    if dt.totalDist = 0 then some (.error 400 "轨迹距离为 0，请绘制更长的路线")
    else
      match params.paceSecondsPerKm with
      | .fin pace =>
        match computeSamples M allPoints dt.distances dt.totalDist pace
            params.hrRestVal params.hrMaxVal rnd with
        | none => some (.error 500 "生成预览失败")
        | some r => some (.preview dt.totalDist r.totalDurationSec r.samples)
      | _ => some .infinitePace

/-- The handler of `POST /api/generate-fit`; see `previewHandler`.  The lap noise draws
first, `computeSamples` continues the random stream. -/
def generateFitHandler (M : MathFns K) (parseDate : String → Option ℤ) (rnd : ℕ → K)
    (body : Body K) : Option (Response K) :=
  match validateRequest parseDate body with
  | .invalid _ => none
  | .valid startDate =>
    let params := parseActivityParams body
    let basePoints := buildClosedBasePoints M (body.points.getD [])
    let allPoints := computeRoutePointsWithNoise M basePoints params.laps rnd
    let dt := computeDistancesAndTotal M allPoints
    if dt.totalDist = 0 then some (.error 400 "轨迹距离为 0，请绘制更长的路线")
    else
      match params.paceSecondsPerKm with
      | .fin pace =>
        match computeSamples M allPoints dt.distances dt.totalDist pace
            params.hrRestVal params.hrMaxVal
            (fun k => rnd (2 * lapIterations params.laps + k)) with
        | none => some (.error 500 "生成 FIT 文件失败")
        | some r =>
          match buildFitFile startDate dt.totalDist r.totalDurationSec r.samples allPoints with
          | none => some (.error 500 "生成 FIT 文件失败")
          | some messages => some (.fit params.variant messages)
      | _ => some .infinitePace

end Defs

end FitGenerator

namespace FitGenerator

open CONSTANTS

section Geometry

variable {K : Type} [LinearOrderedField K]

/-! ## The real functions satisfy the laws -/

theorem real_lawful : OnReals fun M => M.Lawful := by
  refine ⟨Real.sin_zero, Real.sqrt_zero, Real.sqrt_nonneg, ?_, ?_⟩
  · intro x hx
    show Complex.arg ⟨x, 0⟩ = 0
    have h : (⟨x, 0⟩ : ℂ) = ((x : ℝ) : ℂ) := by
      apply Complex.ext <;> simp
    rw [h]
    exact Complex.arg_ofReal_of_nonneg hx
  · intro y x hy
    show 0 ≤ Complex.arg ⟨x, y⟩
    rw [Complex.arg_nonneg_iff]
    exact hy

/-! ## Haversine distance -/

theorem haversineDistance_self (M : MathFns K) (hM : M.Lawful) (lat lon : K) :
    haversineDistance M lat lon lat lon = 0 := by
  simp [haversineDistance, toRad, hM.sin_zero, hM.sqrt_zero, hM.atan2_zero _ (hM.sqrt_nonneg 1)]

theorem haversineDistance_nonneg (M : MathFns K) (hM : M.Lawful) (lat1 lon1 lat2 lon2 : K) :
    0 ≤ haversineDistance M lat1 lon1 lat2 lon2 := by
  unfold haversineDistance
  have h := hM.atan2_nonneg _ (M.sqrt (1 - (M.sin (toRad M (lat2 - lat1) / 2) *
      M.sin (toRad M (lat2 - lat1) / 2) + M.cos (toRad M lat1) * M.cos (toRad M lat2) *
      M.sin (toRad M (lon2 - lon1) / 2) * M.sin (toRad M (lon2 - lon1) / 2))))
    (hM.sqrt_nonneg (M.sin (toRad M (lat2 - lat1) / 2) *
      M.sin (toRad M (lat2 - lat1) / 2) + M.cos (toRad M lat1) * M.cos (toRad M lat2) *
      M.sin (toRad M (lon2 - lon1) / 2) * M.sin (toRad M (lon2 - lon1) / 2)))
  have hR : (0 : K) ≤ EARTH_RADIUS_METERS := by norm_num [EARTH_RADIUS_METERS]
  exact mul_nonneg hR (mul_nonneg (by norm_num) h)

/-! ## Closing the loop -/

theorem buildClosedBasePoints_short (M : MathFns K) (points : List (Point K))
    (h : points.length < 2) : buildClosedBasePoints M points = points := by
  simp [buildClosedBasePoints, h]

theorem buildClosedBasePoints_eq (M : MathFns K) (points : List (Point K)) (first last : Point K)
    (hlen : 2 ≤ points.length) (hf : points.head? = some first)
    (hl : points.getLast? = some last) :
    buildClosedBasePoints M points =
      if haversineDistance M first.lat first.lng last.lat last.lng < CLOSED_THRESHOLD_METERS
      then points else points ++ [{ lat := first.lat, lng := first.lng }] := by
  have h0 : points[0]? = some first := by rw [← List.head?_eq_getElem?]; exact hf
  have h1 : points[points.length - 1]? = some last := by
    rw [← List.getLast?_eq_getElem?]; exact hl
  have hlt : ¬ points.length < 2 := by omega
  have e0 : points[0] = first := by
    have := List.getElem?_eq_getElem (l := points) (n := 0) (by omega)
    rw [this] at h0; exact Option.some.inj h0
  have e1 : points[points.length - 1] = last := by
    have := List.getElem?_eq_getElem (l := points) (n := points.length - 1) (by omega)
    rw [this] at h1; exact Option.some.inj h1
  simp only [buildClosedBasePoints, hlt, dite_false, e0, e1]

/-- Claim C4 (closure idempotence): closing a route twice gives the same point sequence as
closing it once, for a route of any length, the empty and the one-point route included. -/
theorem buildClosedBasePoints_idempotent (M : MathFns K) (hM : M.Lawful)
    (route : List (Point K)) :
    buildClosedBasePoints M (buildClosedBasePoints M route) = buildClosedBasePoints M route := by
  by_cases hlen : route.length < 2
  · rw [buildClosedBasePoints_short M route hlen, buildClosedBasePoints_short M route hlen]
  · obtain ⟨first, hf⟩ : ∃ first, route.head? = some first := by
      cases route with
      | nil => simp at hlen
      | cons a t => exact ⟨a, rfl⟩
    obtain ⟨last, hl⟩ : ∃ last, route.getLast? = some last := by
      cases route with
      | nil => simp at hlen
      | cons a t => exact ⟨_, List.getLast?_eq_getLast _ (List.cons_ne_nil a t)⟩
    rw [buildClosedBasePoints_eq M route first last (by omega) hf hl]
    split
    · rename_i hd
      rw [buildClosedBasePoints_eq M route first last (by omega) hf hl, if_pos hd]
    · have hf2 : (route ++ [({ lat := first.lat, lng := first.lng } : Point K)]).head? =
          some first := by
        cases route with
        | nil => simp at hlen
        | cons a t => simpa using hf
      rw [buildClosedBasePoints_eq M _ first { lat := first.lat, lng := first.lng }
        (by simp; omega) hf2 (by simp)]
      have h0 : haversineDistance M first.lat first.lng first.lat first.lng <
          CLOSED_THRESHOLD_METERS := by
        rw [haversineDistance_self M hM]; norm_num [CLOSED_THRESHOLD_METERS]
      rw [if_pos h0]

/-- Witness for C4 on the real functions: a two-point route one degree of longitude long. -/
theorem buildClosedBasePoints_idempotent_witness :
    OnReals fun M =>
      buildClosedBasePoints M (buildClosedBasePoints M [⟨0, 0⟩, ⟨0, 1⟩]) =
        buildClosedBasePoints M [⟨0, 0⟩, ⟨0, 1⟩] :=
  buildClosedBasePoints_idempotent _ real_lawful [⟨0, 0⟩, ⟨0, 1⟩]

/-- Claim C5 (closure threshold): for a route of at least two points with first point `first`
and last point `last`, if their haversine distance is at least 5 metres the result is the
route followed by one point with the latitude and longitude of `first` (one point longer,
the route a prefix); if the distance is below 5 metres the result is the route itself. -/
theorem buildClosedBasePoints_threshold (M : MathFns K) (route : List (Point K))
    (first last : Point K) (hlen : 2 ≤ route.length) (hf : route.head? = some first)
    (hl : route.getLast? = some last) :
    (5 ≤ haversineDistance M first.lat first.lng last.lat last.lng →
      buildClosedBasePoints M route = route ++ [{ lat := first.lat, lng := first.lng }] ∧
      (buildClosedBasePoints M route).length = route.length + 1 ∧
      route <+: buildClosedBasePoints M route) ∧
    (haversineDistance M first.lat first.lng last.lat last.lng < 5 →
      buildClosedBasePoints M route = route) := by
  rw [buildClosedBasePoints_eq M route first last hlen hf hl]
  constructor
  · intro h
    have h5 : ¬ haversineDistance M first.lat first.lng last.lat last.lng <
        CLOSED_THRESHOLD_METERS := by
      simpa [CLOSED_THRESHOLD_METERS] using h
    rw [if_neg h5]
    exact ⟨rfl, by simp, List.prefix_append _ _⟩
  · intro h
    have h5 : haversineDistance M first.lat first.lng last.lat last.lng <
        CLOSED_THRESHOLD_METERS := by
      simpa [CLOSED_THRESHOLD_METERS] using h
    rw [if_pos h5]

/-- Witness for C5 on the real functions: a route one degree of longitude long. -/
theorem buildClosedBasePoints_threshold_witness :
    OnReals fun M =>
      (5 ≤ haversineDistance M 0 0 0 1 →
        buildClosedBasePoints M [⟨0, 0⟩, ⟨0, 1⟩] = [⟨0, 0⟩, ⟨0, 1⟩] ++ [⟨0, 0⟩] ∧
        (buildClosedBasePoints M [⟨0, 0⟩, ⟨0, 1⟩]).length = 2 + 1 ∧
        [⟨0, 0⟩, ⟨0, 1⟩] <+: buildClosedBasePoints M [⟨0, 0⟩, ⟨0, 1⟩]) ∧
      (haversineDistance M 0 0 0 1 < 5 →
        buildClosedBasePoints M [⟨0, 0⟩, ⟨0, 1⟩] = [⟨0, 0⟩, ⟨0, 1⟩]) :=
  buildClosedBasePoints_threshold _ [⟨0, 0⟩, ⟨0, 1⟩] ⟨0, 0⟩ ⟨0, 1⟩ (by simp) rfl rfl

/-! ## Distance trace -/

theorem distLoop_length (M : MathFns K) (ps : List (Point K)) (p : Point K) (t : K) :
    (distLoop M p t ps).1.length = ps.length := by
  induction ps generalizing p t with
  | nil => rfl
  | cons q qs ih => simp [distLoop, ih]

theorem distLoop_getLast (M : MathFns K) (ps : List (Point K)) (p : Point K) (t : K) :
    (t :: (distLoop M p t ps).1).getLast? = some (distLoop M p t ps).2 := by
  induction ps generalizing p t with
  | nil => rfl
  | cons q qs ih =>
    simp only [distLoop]
    rw [List.getLast?_cons_cons]
    exact ih q _

theorem distLoop_step (M : MathFns K) (ps : List (Point K)) (p : Point K) (t : K) (i : ℕ)
    (a b : Point K) (ha : (p :: ps)[i]? = some a) (hb : (p :: ps)[i + 1]? = some b) :
    (t :: (distLoop M p t ps).1).getD (i + 1) 0 =
      (t :: (distLoop M p t ps).1).getD i 0 + haversineDistance M a.lat a.lng b.lat b.lng := by
  induction ps generalizing p t i with
  | nil => simp at hb
  | cons q qs ih =>
    cases i with
    | zero =>
      simp only [List.getElem?_cons_zero, Option.some.injEq, zero_add,
        List.getElem?_cons_succ] at ha hb
      subst ha; subst hb
      simp [distLoop]
    | succ k =>
      have ha2 : (q :: qs)[k]? = some a := by simpa using ha
      have hb2 : (q :: qs)[k + 1]? = some b := by simpa using hb
      have := ih q (t + haversineDistance M p.lat p.lng q.lat q.lng) k ha2 hb2
      simpa [distLoop] using this

theorem distLoop_total_ge (M : MathFns K) (hM : M.Lawful) (ps : List (Point K)) (p : Point K)
    (t : K) : t ≤ (distLoop M p t ps).2 := by
  induction ps generalizing p t with
  | nil => exact le_refl _
  | cons q qs ih =>
    simp only [distLoop]
    exact le_trans (le_add_of_nonneg_right (haversineDistance_nonneg M hM _ _ _ _)) (ih q _)

theorem distLoop_total_mono (M : MathFns K) (ps : List (Point K)) (p : Point K) (t u : K)
    (h : t ≤ u) : (distLoop M p t ps).2 ≤ (distLoop M p u ps).2 := by
  induction ps generalizing p t u with
  | nil => exact h
  | cons q qs ih =>
    simp only [distLoop]
    exact ih q _ _ (add_le_add_right h _)

theorem distLoop_total_append (M : MathFns K) (hM : M.Lawful) (xs ys : List (Point K))
    (p : Point K) (t : K) : (distLoop M p t xs).2 ≤ (distLoop M p t (xs ++ ys)).2 := by
  induction xs generalizing p t with
  | nil => exact distLoop_total_ge M hM ys p t
  | cons q qs ih =>
    simp only [distLoop, List.cons_append]
    exact ih q _

theorem computeDistancesAndTotal_total_append (M : MathFns K) (hM : M.Lawful)
    (xs ys : List (Point K)) (hx : xs ≠ []) :
    (computeDistancesAndTotal M xs).totalDist ≤
      (computeDistancesAndTotal M (xs ++ ys)).totalDist := by
  cases xs with
  | nil => exact absurd rfl hx
  | cons p ps => exact distLoop_total_append M hM ps ys p 0

theorem distLoop_total_const (M : MathFns K) (hM : M.Lawful) (ps : List (Point K)) (p : Point K)
    (t : K) (h : ∀ q ∈ ps, q = p) : (distLoop M p t ps).2 = t := by
  induction ps generalizing t with
  | nil => rfl
  | cons q qs ih =>
    have hq : q = p := h q (List.mem_cons_self _ _)
    subst hq
    simp only [distLoop, haversineDistance_self M hM, add_zero]
    exact ih t fun r hr => h r (List.mem_cons_of_mem _ hr)

theorem computeDistancesAndTotal_length (M : MathFns K) (allPoints : List (Point K))
    (hne : allPoints ≠ []) :
    (computeDistancesAndTotal M allPoints).distances.length = allPoints.length := by
  cases allPoints with
  | nil => exact absurd rfl hne
  | cons p ps => simp [computeDistancesAndTotal, distLoop_length]

theorem computeDistancesAndTotal_zero (M : MathFns K) (allPoints : List (Point K)) :
    (computeDistancesAndTotal M allPoints).distances.getD 0 0 = 0 := by
  cases allPoints <;> simp [computeDistancesAndTotal]

theorem computeDistancesAndTotal_step (M : MathFns K) (allPoints : List (Point K)) (i : ℕ)
    (a b : Point K) (ha : allPoints[i]? = some a) (hb : allPoints[i + 1]? = some b) :
    (computeDistancesAndTotal M allPoints).distances.getD (i + 1) 0 =
      (computeDistancesAndTotal M allPoints).distances.getD i 0 +
        haversineDistance M a.lat a.lng b.lat b.lng := by
  cases allPoints with
  | nil => simp at ha
  | cons p ps => exact distLoop_step M ps p 0 i a b ha hb

theorem computeDistancesAndTotal_mono (M : MathFns K) (hM : M.Lawful)
    (allPoints : List (Point K)) (i : ℕ) (hi : i + 1 < allPoints.length) :
    (computeDistancesAndTotal M allPoints).distances.getD i 0 ≤
      (computeDistancesAndTotal M allPoints).distances.getD (i + 1) 0 := by
  have hi0 : i < allPoints.length := by omega
  rw [computeDistancesAndTotal_step M allPoints i _ _ (List.getElem?_eq_getElem hi0)
    (List.getElem?_eq_getElem hi)]
  exact le_add_of_nonneg_right (haversineDistance_nonneg M hM _ _ _ _)

theorem computeDistancesAndTotal_getLast (M : MathFns K) (allPoints : List (Point K)) :
    (computeDistancesAndTotal M allPoints).distances.getLast? =
      some (computeDistancesAndTotal M allPoints).totalDist := by
  cases allPoints with
  | nil => rfl
  | cons p ps => exact distLoop_getLast M ps p 0

/-- Claim C6 (distance trace shape): for a non-empty point list the distance trace has the
length of the point list, starts at 0, grows at each index by the haversine distance of the
consecutive pair of points (which is not negative, so the trace is non-decreasing), and
`totalDist` is its last entry. -/
theorem computeDistancesAndTotal_shape (M : MathFns K) (hM : M.Lawful)
    (allPoints : List (Point K)) (hne : allPoints ≠ []) :
    (computeDistancesAndTotal M allPoints).distances.length = allPoints.length ∧
    (computeDistancesAndTotal M allPoints).distances.getD 0 0 = 0 ∧
    (∀ i a b, allPoints[i]? = some a → allPoints[i + 1]? = some b →
      (computeDistancesAndTotal M allPoints).distances.getD (i + 1) 0 =
        (computeDistancesAndTotal M allPoints).distances.getD i 0 +
          haversineDistance M a.lat a.lng b.lat b.lng ∧
      0 ≤ haversineDistance M a.lat a.lng b.lat b.lng) ∧
    (∀ i, i + 1 < (computeDistancesAndTotal M allPoints).distances.length →
      (computeDistancesAndTotal M allPoints).distances.getD i 0 ≤
        (computeDistancesAndTotal M allPoints).distances.getD (i + 1) 0) ∧
    (computeDistancesAndTotal M allPoints).distances.getLast? =
      some (computeDistancesAndTotal M allPoints).totalDist := by
  refine ⟨computeDistancesAndTotal_length M allPoints hne,
    computeDistancesAndTotal_zero M allPoints, ?_, ?_,
    computeDistancesAndTotal_getLast M allPoints⟩
  · intro i a b ha hb
    exact ⟨computeDistancesAndTotal_step M allPoints i a b ha hb,
      haversineDistance_nonneg M hM _ _ _ _⟩
  · intro i hi
    rw [computeDistancesAndTotal_length M allPoints hne] at hi
    exact computeDistancesAndTotal_mono M hM allPoints i hi

/-- Witness for C6 on the real functions: a three-point route. -/
theorem computeDistancesAndTotal_shape_witness :
    OnReals fun M =>
      (computeDistancesAndTotal M [⟨0, 0⟩, ⟨0, 1⟩, ⟨1, 1⟩]).distances.length = 3 ∧
      (computeDistancesAndTotal M [⟨0, 0⟩, ⟨0, 1⟩, ⟨1, 1⟩]).distances.getLast? =
        some (computeDistancesAndTotal M [⟨0, 0⟩, ⟨0, 1⟩, ⟨1, 1⟩]).totalDist :=
  have h := computeDistancesAndTotal_shape _ real_lawful
    [(⟨0, 0⟩ : Point ℝ), ⟨0, 1⟩, ⟨1, 1⟩] (by simp)
  ⟨h.1, h.2.2.2.2⟩

theorem usedLaps_pos (laps : K) : 0 < usedLaps laps := by
  unfold usedLaps
  split
  · assumption
  · norm_num [LAP_DEFAULT_COUNT]

theorem prefix_buildClosedBasePoints (M : MathFns K) (route : List (Point K)) :
    route <+: buildClosedBasePoints M route := by
  unfold buildClosedBasePoints
  split
  · exact List.prefix_refl _
  · simp only
    split
    · exact List.prefix_refl _
    · exact List.prefix_append _ _

theorem computeDistancesAndTotal_const (M : MathFns K) (hM : M.Lawful)
    (allPoints : List (Point K)) (p : Point K) (h : ∀ q ∈ allPoints, q = p) :
    (computeDistancesAndTotal M allPoints).totalDist = 0 := by
  cases allPoints with
  | nil => rfl
  | cons a t =>
    have ha : a = p := h a (List.mem_cons_self _ _)
    subst ha
    exact distLoop_total_const M hM t a 0 fun q hq => h q (List.mem_cons_of_mem _ hq)

theorem buildClosedBasePoints_const (M : MathFns K) (hM : M.Lawful) (route : List (Point K))
    (p : Point K) (h : ∀ q ∈ route, q = p) : buildClosedBasePoints M route = route := by
  by_cases hlen : route.length < 2
  · exact buildClosedBasePoints_short M route hlen
  · have hne : route ≠ [] := by
      intro h0; rw [h0] at hlen; simp at hlen
    have hf : route.head? = some p := by
      cases route with
      | nil => exact absurd rfl hne
      | cons a t => rw [h a (List.mem_cons_self _ _)]; rfl
    have hl : route.getLast? = some p := by
      rw [List.getLast?_eq_getLast _ hne, h _ (List.getLast_mem hne)]
    rw [buildClosedBasePoints_eq M route p p (by omega) hf hl, haversineDistance_self M hM,
      if_pos (by norm_num [CLOSED_THRESHOLD_METERS])]

end Geometry

section Validation

variable {K : Type}

/-! ## Request validation -/

theorem validateRequest_valid (parseDate : String → Option ℤ) (body : Body K) (st : String)
    (d : ℤ) (route : List (Point K)) (hst : body.startTime = some st) (hne : st ≠ "")
    (hpts : body.points = some route) (hlen : 2 ≤ route.length) (hd : parseDate st = some d) :
    validateRequest parseDate body = .valid d := by
  have h2 : ¬ route.length < MIN_POINTS := by unfold MIN_POINTS; omega
  simp [validateRequest, hst, hne, hpts, hd, h2]

end Validation

section Laps

variable {K : Type} [LinearOrderedField K] [FloorRing K]

/-! ## Lap expansion -/

theorem lapIterations_pos (laps : K) : 0 < lapIterations laps :=
  Nat.ceil_pos.mpr (usedLaps_pos laps)

theorem lapIterations_one : lapIterations (1 : K) = 1 := by
  simp [lapIterations, usedLaps]

theorem computeRoutePoints_one (basePoints : List (Point K)) :
    computeRoutePoints basePoints 1 = basePoints := by
  simp [computeRoutePoints, lapIterations_one, List.range_succ]

/-- Claim C10 (single lap is never perturbed): with `laps = 1` both lap-expansion functions
return the base route itself, whatever the random draws. -/
theorem single_lap_unperturbed (M : MathFns K) (basePoints : List (Point K)) (rnd : ℕ → K) :
    computeRoutePointsWithNoise M basePoints 1 rnd = basePoints ∧
    computeRoutePoints basePoints 1 = basePoints := by
  constructor
  · have h1 : usedLaps (1 : K) = 1 := by simp [usedLaps]
    simp [computeRoutePointsWithNoise, lapIterations_one, noisyLap, h1, List.range_succ]
  · exact computeRoutePoints_one basePoints

end Laps

section Synthesis

variable {K : Type} [LinearOrderedField K]

/-! ## Activity synthesis: durations -/

/-- The raw time elapsed up to index `k`: the sum of `segDurationsRaw[0 .. k - 1]`. -/
def rawElapsed (M : MathFns K) (distances : List K) (totalDist paceSecondsPerKm : K)
    (rnd : ℕ → K) (k : ℕ) : K :=
  ((List.range' 1 k).map (segDurationRaw M distances totalDist paceSecondsPerKm rnd)).sum

theorem foldl_add_eq_sum (f : ℕ → K) (l : List ℕ) (a : K) :
    l.foldl (fun acc i => acc + f i) a = a + (l.map f).sum := by
  induction l generalizing a with
  | nil => simp
  | cons x xs ih => simp [ih, add_assoc]

theorem rawDuration_eq (M : MathFns K) (distances : List K) (totalDist pace : K)
    (rnd : ℕ → K) (n : ℕ) :
    rawDuration M distances totalDist pace rnd n =
      rawElapsed M distances totalDist pace rnd (n - 1) := by
  simp [rawDuration, rawElapsed, foldl_add_eq_sum]

theorem rawElapsed_succ (M : MathFns K) (distances : List K) (totalDist pace : K)
    (rnd : ℕ → K) (k : ℕ) :
    rawElapsed M distances totalDist pace rnd (k + 1) =
      rawElapsed M distances totalDist pace rnd k +
        segDurationRaw M distances totalDist pace rnd (k + 1) := by
  simp [rawElapsed, List.range'_1_concat, add_comm 1 k]

theorem avgSpeedTarget_eq (totalDist pace : K) (hpos : 0 < totalDist) (hpace : 0 < pace) :
    avgSpeedTarget totalDist pace = 1000 / pace := by
  unfold avgSpeedTarget targetDurationSec
  field_simp
  ring

theorem avgSpeedTarget_pos (totalDist pace : K) (hpos : 0 < totalDist) (hpace : 0 < pace) :
    0 < avgSpeedTarget totalDist pace := by
  rw [avgSpeedTarget_eq totalDist pace hpos hpace]
  positivity

theorem targetDurationSec_pos (totalDist pace : K) (hpos : 0 < totalDist) (hpace : 0 < pace) :
    0 < targetDurationSec totalDist pace := by
  unfold targetDurationSec
  positivity

/-- The speed that divides a segment in the second loop is positive. -/
theorem segSpeed_pos (M : MathFns K) (distances : List K) (totalDist pace : K) (rnd : ℕ → K)
    (i : ℕ) (hpos : 0 < totalDist) (hpace : 0 < pace) :
    0 < (if instSpeedRaw M distances totalDist pace rnd i > 0 then
      instSpeedRaw M distances totalDist pace rnd i else avgSpeedTarget totalDist pace) := by
  split
  · assumption
  · exact avgSpeedTarget_pos totalDist pace hpos hpace

theorem segDurationRaw_nonneg (M : MathFns K) (distances : List K) (totalDist pace : K)
    (rnd : ℕ → K) (i : ℕ) (hpos : 0 < totalDist) (hpace : 0 < pace)
    (h : distances.getD (i - 1) 0 ≤ distances.getD i 0) :
    0 ≤ segDurationRaw M distances totalDist pace rnd i := by
  unfold segDurationRaw
  exact div_nonneg (sub_nonneg.mpr h) (le_of_lt (segSpeed_pos M distances totalDist pace rnd i
    hpos hpace))

theorem segDurationRaw_pos (M : MathFns K) (distances : List K) (totalDist pace : K)
    (rnd : ℕ → K) (i : ℕ) (hpos : 0 < totalDist) (hpace : 0 < pace)
    (h : distances.getD (i - 1) 0 < distances.getD i 0) :
    0 < segDurationRaw M distances totalDist pace rnd i := by
  unfold segDurationRaw
  exact div_pos (sub_pos.mpr h) (segSpeed_pos M distances totalDist pace rnd i hpos hpace)

theorem rawElapsed_nonneg_pos (M : MathFns K) (distances : List K) (totalDist pace : K)
    (rnd : ℕ → K) (hpos : 0 < totalDist) (hpace : 0 < pace) (m : ℕ)
    (hmono : ∀ i, i < m → distances.getD i 0 ≤ distances.getD (i + 1) 0) :
    0 ≤ rawElapsed M distances totalDist pace rnd m ∧
      (distances.getD 0 0 < distances.getD m 0 →
        0 < rawElapsed M distances totalDist pace rnd m) := by
  induction m with
  | zero => simp [rawElapsed]
  | succ m ih =>
    obtain ⟨h1, h2⟩ := ih fun i hi => hmono i (by omega)
    have hstep : distances.getD m 0 ≤ distances.getD (m + 1) 0 := hmono m (by omega)
    have hseg := segDurationRaw_nonneg M distances totalDist pace rnd (m + 1) hpos hpace
      (by simpa using hstep)
    rw [rawElapsed_succ]
    refine ⟨add_nonneg h1 hseg, fun hlt => ?_⟩
    rcases lt_or_eq_of_le hstep with hs | hs
    · exact add_pos_of_nonneg_of_pos h1
        (segDurationRaw_pos M distances totalDist pace rnd (m + 1) hpos hpace (by simpa using hs))
    · exact add_pos_of_pos_of_nonneg (h2 (by rw [hs]; exact hlt)) hseg

theorem rawElapsed_mono (M : MathFns K) (distances : List K) (totalDist pace : K)
    (rnd : ℕ → K) (hpos : 0 < totalDist) (hpace : 0 < pace) (k : ℕ)
    (h : distances.getD k 0 ≤ distances.getD (k + 1) 0) :
    rawElapsed M distances totalDist pace rnd k ≤
      rawElapsed M distances totalDist pace rnd (k + 1) := by
  rw [rawElapsed_succ]
  exact le_add_of_nonneg_right
    (segDurationRaw_nonneg M distances totalDist pace rnd (k + 1) hpos hpace (by simpa using h))

/-- With a positive raw duration the scale maps it onto the target duration. -/
theorem scale_mul_rawDuration (M : MathFns K) (distances : List K) (totalDist pace : K)
    (rnd : ℕ → K) (n : ℕ) (h : 0 < rawDuration M distances totalDist pace rnd n) :
    scale M distances totalDist pace rnd n * rawDuration M distances totalDist pace rnd n =
      targetDurationSec totalDist pace := by
  unfold scale
  rw [if_pos h]
  field_simp

theorem scale_pos (M : MathFns K) (distances : List K) (totalDist pace : K)
    (rnd : ℕ → K) (n : ℕ) (hpos : 0 < totalDist) (hpace : 0 < pace) :
    0 < scale M distances totalDist pace rnd n := by
  unfold scale
  split
  · rename_i h
    exact div_pos (targetDurationSec_pos totalDist pace hpos hpace) h
  · exact one_pos

/-! ## Activity synthesis: the samples -/

/-- The sample that `computeSamples` stores at index `k` for the point `p`. -/
def sampleAt [FloorRing K] (M : MathFns K) (distances : List K)
    (totalDist paceSecondsPerKm hrRestVal hrMaxVal : K) (rnd : ℕ → K) (n k : ℕ)
    (p : Point K) : Sample K :=
  { timeSec := scale M distances totalDist paceSecondsPerKm rnd n *
      rawElapsed M distances totalDist paceSecondsPerKm rnd k
    distance := distances.getD k 0
    speed := instSpeedRaw M distances totalDist paceSecondsPerKm rnd k /
      scale M distances totalDist paceSecondsPerKm rnd n
    heartRate :=
      (hrValues M distances totalDist paceSecondsPerKm hrRestVal hrMaxVal rnd n).getD k 0
    lat := p.lat
    lng := p.lng }

theorem sampleLoop_length (M : MathFns K) (distances : List K) (totalDist pace : K)
    (rnd : ℕ → K) (hr : List K) (scl : K) (ps : List (Point K)) (i : ℕ) (t : K) :
    (sampleLoop M distances totalDist pace rnd hr scl i t ps).length = ps.length := by
  induction ps generalizing i t with
  | nil => rfl
  | cons q qs ih => simp [sampleLoop, ih]

theorem sampleLoop_getElem? (M : MathFns K) (distances : List K) (totalDist pace : K)
    (rnd : ℕ → K) (hr : List K) (scl : K) (ps : List (Point K)) (i : ℕ) (t : K) (k : ℕ)
    (p : Point K) (hp : ps[k]? = some p) :
    (sampleLoop M distances totalDist pace rnd hr scl i t ps)[k]? =
      some { timeSec := t + scl *
                ((List.range' i (k + 1)).map (segDurationRaw M distances totalDist pace rnd)).sum
             distance := distances.getD (i + k) 0
             speed := instSpeedRaw M distances totalDist pace rnd (i + k) / scl
             heartRate := hr.getD (i + k) 0
             lat := p.lat
             lng := p.lng } := by
  induction ps generalizing i t k with
  | nil => simp at hp
  | cons q qs ih =>
    cases k with
    | zero =>
      simp only [List.getElem?_cons_zero, Option.some.injEq] at hp
      subst hp
      simp [sampleLoop, List.range'_succ, mul_comm]
    | succ k =>
      have hp2 : qs[k]? = some p := by simpa using hp
      have := ih (i + 1) (t + segDurationRaw M distances totalDist pace rnd i * scl) k hp2
      simp only [sampleLoop, List.getElem?_cons_succ]
      rw [this]
      refine congrArg some ?_
      rw [Sample.mk.injEq]
      refine ⟨?_, ?_, ?_, ?_, rfl, rfl⟩
      · rw [List.range'_succ i (k + 1)]
        simp only [List.map_cons, List.sum_cons]
        ring
      · rw [show i + 1 + k = i + (k + 1) by omega]
      · rw [show i + 1 + k = i + (k + 1) by omega]
      · rw [show i + 1 + k = i + (k + 1) by omega]

/-- The samples of `computeSamples`, index by index. -/
theorem computeSamples_getElem? [FloorRing K] (M : MathFns K) (allPoints : List (Point K))
    (distances : List K) (totalDist pace hrRest hrMax : K) (rnd : ℕ → K)
    (hne : allPoints ≠ []) :
    ∃ r, computeSamples M allPoints distances totalDist pace hrRest hrMax rnd = some r ∧
      r.samples.length = allPoints.length ∧
      r.samples.getLast?.map Sample.timeSec = some r.totalDurationSec ∧
      ∀ k p, allPoints[k]? = some p →
        r.samples[k]? =
          some (sampleAt M distances totalDist pace hrRest hrMax rnd allPoints.length k p) := by
  cases allPoints with
  | nil => exact absurd rfl hne
  | cons p0 rest =>
    refine ⟨_, rfl, ?_, ?_, ?_⟩
    · simp [sampleLoop_length]
    · simp only
      rw [List.getLast?_eq_getLast _ (List.cons_ne_nil _ _)]
      rfl
    · intro k p hp
      cases k with
      | zero =>
        simp only [List.getElem?_cons_zero, Option.some.injEq] at hp
        subst hp
        simp [sampleAt, rawElapsed]
      | succ k =>
        have hp2 : rest[k]? = some p := by simpa using hp
        simp only [List.getElem?_cons_succ]
        rw [sampleLoop_getElem? M distances totalDist pace rnd _ _ rest 1 0 k p hp2]
        simp [sampleAt, rawElapsed, add_comm 1 k]

theorem computeSamples_sampleAt [FloorRing K] (M : MathFns K) (allPoints : List (Point K))
    (distances : List K) (totalDist pace hrRest hrMax : K) (rnd : ℕ → K)
    (r : SamplesResult K)
    (hr : computeSamples M allPoints distances totalDist pace hrRest hrMax rnd = some r) :
    r.samples.length = allPoints.length ∧
      ∀ k p, allPoints[k]? = some p →
        r.samples[k]? =
          some (sampleAt M distances totalDist pace hrRest hrMax rnd allPoints.length k p) := by
  have hne : allPoints ≠ [] := by
    intro h; rw [h] at hr; simp [computeSamples] at hr
  obtain ⟨r2, hr2, hl, _, hidx⟩ :=
    computeSamples_getElem? M allPoints distances totalDist pace hrRest hrMax rnd hne
  rw [hr] at hr2
  obtain rfl := Option.some.inj hr2
  exact ⟨hl, hidx⟩

/-- Consecutive samples: time never runs backwards, and it advances exactly when the
distance does. -/
theorem sampleAt_time_step [FloorRing K] (M : MathFns K) (distances : List K)
    (totalDist pace hrRest hrMax : K) (rnd : ℕ → K) (n k : ℕ) (p q : Point K)
    (hpos : 0 < totalDist) (hpace : 0 < pace)
    (h : distances.getD k 0 ≤ distances.getD (k + 1) 0) :
    (sampleAt M distances totalDist pace hrRest hrMax rnd n k p).timeSec ≤
      (sampleAt M distances totalDist pace hrRest hrMax rnd n (k + 1) q).timeSec ∧
    ((sampleAt M distances totalDist pace hrRest hrMax rnd n k p).distance <
        (sampleAt M distances totalDist pace hrRest hrMax rnd n (k + 1) q).distance →
      (sampleAt M distances totalDist pace hrRest hrMax rnd n k p).timeSec <
        (sampleAt M distances totalDist pace hrRest hrMax rnd n (k + 1) q).timeSec) ∧
    ((sampleAt M distances totalDist pace hrRest hrMax rnd n k p).distance =
        (sampleAt M distances totalDist pace hrRest hrMax rnd n (k + 1) q).distance →
      (sampleAt M distances totalDist pace hrRest hrMax rnd n k p).timeSec =
        (sampleAt M distances totalDist pace hrRest hrMax rnd n (k + 1) q).timeSec) := by
  have hs := scale_pos M distances totalDist pace rnd n hpos hpace
  simp only [sampleAt, rawElapsed_succ, mul_add]
  refine ⟨?_, ?_, ?_⟩
  · exact le_add_of_nonneg_right (mul_nonneg hs.le
      (segDurationRaw_nonneg M distances totalDist pace rnd (k + 1) hpos hpace (by simpa using h)))
  · intro hlt
    exact lt_add_of_pos_right _ (mul_pos hs
      (segDurationRaw_pos M distances totalDist pace rnd (k + 1) hpos hpace (by simpa using hlt)))
  · intro heq
    have : segDurationRaw M distances totalDist pace rnd (k + 1) = 0 := by
      unfold segDurationRaw
      simp only [Nat.add_sub_cancel]
      rw [← heq, sub_self, zero_div]
    rw [this, mul_zero, add_zero]

/-- The duration contract of `computeSamples`: the last sample carries the target duration. -/
theorem computeSamples_last_time [FloorRing K] (M : MathFns K)
    (allPoints : List (Point K)) (distances : List K) (totalDist pace hrRest hrMax : K)
    (rnd : ℕ → K) (hn : 2 ≤ allPoints.length) (hlen : distances.length = allPoints.length)
    (h0 : distances.getD 0 0 = 0)
    (hmono : ∀ i, i + 1 < distances.length → distances.getD i 0 ≤ distances.getD (i + 1) 0)
    (hlast : distances.getLast? = some totalDist) (hpos : 0 < totalDist) (hpace : 0 < pace) :
    ∃ r s, computeSamples M allPoints distances totalDist pace hrRest hrMax rnd = some r ∧
      r.samples.getLast? = some s ∧
      r.totalDurationSec = s.timeSec ∧
      s.timeSec = totalDist / 1000 * pace := by
  have hne : allPoints ≠ [] := by
    intro h; rw [h] at hn; simp at hn
  obtain ⟨r, hr, hl, hdur, hidx⟩ :=
    computeSamples_getElem? M allPoints distances totalDist pace hrRest hrMax rnd hne
  have hk : allPoints.length - 1 < allPoints.length := by omega
  have hs := hidx (allPoints.length - 1) _ (List.getElem?_eq_getElem hk)
  have hlast2 : r.samples.getLast? = some (sampleAt M distances totalDist pace hrRest hrMax rnd
      allPoints.length (allPoints.length - 1) allPoints[allPoints.length - 1]) := by
    rw [List.getLast?_eq_getElem?, hl]; exact hs
  have hdn : distances.getD (allPoints.length - 1) 0 = totalDist := by
    rw [List.getLast?_eq_getElem?, hlen] at hlast
    rw [List.getD_eq_getElem?_getD, hlast]; rfl
  have hraw : 0 < rawDuration M distances totalDist pace rnd allPoints.length := by
    rw [rawDuration_eq]
    refine (rawElapsed_nonneg_pos M distances totalDist pace rnd hpos hpace
      (allPoints.length - 1) (fun i hi => hmono i (by omega))).2 ?_
    rw [h0, hdn]; exact hpos
  have htime : (sampleAt M distances totalDist pace hrRest hrMax rnd allPoints.length
      (allPoints.length - 1) allPoints[allPoints.length - 1]).timeSec =
      totalDist / 1000 * pace := by
    show scale M distances totalDist pace rnd allPoints.length *
      rawElapsed M distances totalDist pace rnd (allPoints.length - 1) = _
    rw [← rawDuration_eq, scale_mul_rawDuration M distances totalDist pace rnd _ hraw]
    rfl
  refine ⟨r, _, hr, hlast2, ?_, htime⟩
  rw [hlast2] at hdur
  exact (Option.some.inj hdur).symm

/-- Claim C1 (duration exactness): for at least two points and a distance trace of the same
length that starts at 0, never decreases and ends at `totalDist > 0`, for every pace above 0,
every heart-rate pair and all random draws in [0,1), `computeSamples` returns, its
`totalDurationSec` is the `timeSec` of the last sample, and that value is exactly
`(totalDist / 1000) * paceSecondsPerKm`, so also within the relative tolerance 1e-6. -/
theorem computeSamples_duration_exact [FloorRing K] (M : MathFns K)
    (allPoints : List (Point K)) (distances : List K) (totalDist pace hrRest hrMax : K)
    (rnd : ℕ → K) (hn : 2 ≤ allPoints.length) (hlen : distances.length = allPoints.length)
    (h0 : distances.getD 0 0 = 0)
    (hmono : ∀ i, i + 1 < distances.length → distances.getD i 0 ≤ distances.getD (i + 1) 0)
    (hlast : distances.getLast? = some totalDist) (hpos : 0 < totalDist) (hpace : 0 < pace)
    (_hrnd : ∀ k, 0 ≤ rnd k ∧ rnd k < 1) :
    ∃ r s, computeSamples M allPoints distances totalDist pace hrRest hrMax rnd = some r ∧
      r.samples.getLast? = some s ∧
      r.totalDurationSec = s.timeSec ∧
      s.timeSec = totalDist / 1000 * pace ∧
      |s.timeSec - totalDist / 1000 * pace| ≤ 1e-6 * (totalDist / 1000 * pace) := by
  obtain ⟨r, s, hr, hs, hd, ht⟩ := computeSamples_last_time M allPoints distances totalDist
    pace hrRest hrMax rnd hn hlen h0 hmono hlast hpos hpace
  refine ⟨r, s, hr, hs, hd, ht, ?_⟩
  rw [ht, sub_self, abs_zero]
  positivity

/-! ## Activity synthesis: heart rate -/

theorem jsRound_clamp_bounds [FloorRing K] (lo hi : ℤ) (hle : lo ≤ hi) (x : K) :
    ∃ z : ℤ, jsRound (min (hi : K) (max (lo : K) x)) = (z : K) ∧ lo ≤ z ∧ z ≤ hi := by
  refine ⟨⌊min (hi : K) (max (lo : K) x) + 1 / 2⌋, rfl, ?_, ?_⟩
  · rw [Int.le_floor]
    have h1 : (lo : K) ≤ min (hi : K) (max (lo : K) x) :=
      le_min (by exact_mod_cast hle) (le_max_left _ _)
    linarith
  · rw [← Int.lt_add_one_iff, Int.floor_lt]
    have h1 : min (hi : K) (max (lo : K) x) ≤ (hi : K) := min_le_left _ _
    push_cast
    linarith

theorem hrLoop_length [FloorRing K] (M : MathFns K) (distances : List K)
    (totalDist pace hrRest hrMax : K) (rnd : ℕ → K) (is : List ℕ) (cur : K) :
    (hrLoop M distances totalDist pace hrRest hrMax rnd is cur).length = is.length := by
  induction is generalizing cur with
  | nil => rfl
  | cons i is ih => simp [hrLoop, ih]

theorem hrLoop_bounds [FloorRing K] (M : MathFns K) (distances : List K)
    (totalDist pace : K) (lo hi : ℤ) (hle : lo ≤ hi) (rnd : ℕ → K) (is : List ℕ) (cur : K) :
    ∀ v ∈ hrLoop M distances totalDist pace (lo : K) (hi : K) rnd is cur,
      ∃ z : ℤ, v = (z : K) ∧ lo ≤ z ∧ z ≤ hi := by
  induction is generalizing cur with
  | nil => intro v hv; simp [hrLoop] at hv
  | cons i is ih =>
    intro v hv
    simp only [hrLoop, List.mem_cons] at hv
    rcases hv with hv | hv
    · rw [hv]; exact jsRound_clamp_bounds lo hi hle _
    · exact ih _ v hv

/-- Claim C3 (heart-rate bounds): with integers `hrRest < hrMax`, `totalDist > 0`, pace above
0 and random draws in [0,1), every sample that `computeSamples` returns has an integer
`heartRate` with `hrRest ≤ heartRate ≤ hrMax`; and it returns for any non-empty point list. -/
theorem computeSamples_heartRate_bounds [FloorRing K] (M : MathFns K)
    (allPoints : List (Point K)) (distances : List K) (totalDist pace : K) (hrRest hrMax : ℤ)
    (rnd : ℕ → K) (hlt : hrRest < hrMax) (_hpos : 0 < totalDist) (_hpace : 0 < pace)
    (_hrnd : ∀ k, 0 ≤ rnd k ∧ rnd k < 1) :
    (allPoints ≠ [] →
      ∃ r, computeSamples M allPoints distances totalDist pace hrRest hrMax rnd = some r) ∧
    ∀ r, computeSamples M allPoints distances totalDist pace hrRest hrMax rnd = some r →
      ∀ s ∈ r.samples, ∃ z : ℤ, s.heartRate = (z : K) ∧ hrRest ≤ z ∧ z ≤ hrMax := by
  constructor
  · intro hne
    obtain ⟨r, hr, _⟩ :=
      computeSamples_getElem? M allPoints distances totalDist pace hrRest hrMax rnd hne
    exact ⟨r, hr⟩
  · intro r hr s hs
    have hne : allPoints ≠ [] := by
      intro h; rw [h] at hr; simp [computeSamples] at hr
    obtain ⟨r2, hr2, hl, _, hidx⟩ :=
      computeSamples_getElem? M allPoints distances totalDist pace hrRest hrMax rnd hne
    rw [hr] at hr2
    obtain rfl := Option.some.inj hr2
    obtain ⟨k, hk, rfl⟩ := List.getElem_of_mem hs
    have hk2 : k < allPoints.length := by rw [← hl]; exact hk
    have h1 := hidx k _ (List.getElem?_eq_getElem hk2)
    rw [List.getElem?_eq_getElem hk] at h1
    rw [Option.some.inj h1]
    show ∃ z : ℤ, (hrValues M distances totalDist pace (hrRest : K) (hrMax : K) rnd
      allPoints.length).getD k 0 = (z : K) ∧ hrRest ≤ z ∧ z ≤ hrMax
    have hlen : k < (hrValues M distances totalDist pace (hrRest : K) (hrMax : K) rnd
        allPoints.length).length := by
      simp [hrValues, hrLoop_length]; exact hk2
    rw [List.getD_eq_getElem _ _ hlen]
    exact hrLoop_bounds M distances totalDist pace hrRest hrMax (le_of_lt hlt) rnd _ _ _
      (List.getElem_mem _)

end Synthesis

section Reals

/-! ## Haversine distance along the equator, on the real functions -/

theorem arg_sqrt_cos_sin (θ : ℝ) (h0 : 0 ≤ θ) (h1 : θ ≤ Real.pi / 2) :
    Complex.arg ⟨Real.sqrt (1 - Real.sin θ * Real.sin θ),
      Real.sqrt (Real.sin θ * Real.sin θ)⟩ = θ := by
  have hpi := Real.pi_pos
  have hs : 0 ≤ Real.sin θ := Real.sin_nonneg_of_nonneg_of_le_pi h0 (by linarith)
  have hc : 0 ≤ Real.cos θ := Real.cos_nonneg_of_mem_Icc ⟨by linarith, h1⟩
  have e1 : Real.sqrt (Real.sin θ * Real.sin θ) = Real.sin θ := Real.sqrt_mul_self hs
  have e2 : Real.sqrt (1 - Real.sin θ * Real.sin θ) = Real.cos θ := by
    have h : 1 - Real.sin θ * Real.sin θ = Real.cos θ * Real.cos θ := by
      have := Real.sin_sq_add_cos_sq θ
      nlinarith
    rw [h, Real.sqrt_mul_self hc]
  rw [e1, e2]
  have e3 : (⟨Real.cos θ, Real.sin θ⟩ : ℂ) =
      Complex.cos θ + Complex.sin θ * Complex.I := by
    apply Complex.ext
    · simp [← Complex.ofReal_cos, ← Complex.ofReal_sin]
    · simp [← Complex.ofReal_cos, ← Complex.ofReal_sin]
  rw [e3]
  exact Complex.arg_cos_add_sin_mul_I ⟨by linarith, by linarith⟩

/-- Two points on the equator at most 180 degrees of longitude apart are
`6371000 * |lon2 - lon1| * π / 180` metres apart. -/
theorem real_haversine_equator (lon1 lon2 : ℝ) (h : |lon2 - lon1| ≤ 180) :
    OnReals fun M =>
      haversineDistance M 0 lon1 0 lon2 = 6371000 * (|lon2 - lon1| * Real.pi / 180) := by
  have hpi := Real.pi_pos
  have hθ0 : 0 ≤ |lon2 - lon1| * Real.pi / 180 / 2 := by positivity
  have hθ1 : |lon2 - lon1| * Real.pi / 180 / 2 ≤ Real.pi / 2 := by
    have : |lon2 - lon1| * Real.pi ≤ 180 * Real.pi := mul_le_mul_of_nonneg_right h hpi.le
    linarith
  have hsq : Real.sin ((lon2 - lon1) * Real.pi / 180 / 2) *
      Real.sin ((lon2 - lon1) * Real.pi / 180 / 2) =
      Real.sin (|lon2 - lon1| * Real.pi / 180 / 2) *
        Real.sin (|lon2 - lon1| * Real.pi / 180 / 2) := by
    rcases abs_cases (lon2 - lon1) with ⟨e, _⟩ | ⟨e, _⟩
    · rw [e]
    · rw [e]
      have : -(lon2 - lon1) * Real.pi / 180 / 2 = -((lon2 - lon1) * Real.pi / 180 / 2) := by
        ring
      rw [this, Real.sin_neg]
      ring
  show (6371000 : ℝ) * (2 * Complex.arg ⟨Real.sqrt (1 - (Real.sin ((0 - 0) * Real.pi / 180 / 2) *
      Real.sin ((0 - 0) * Real.pi / 180 / 2) + Real.cos (0 * Real.pi / 180) *
      Real.cos (0 * Real.pi / 180) * Real.sin ((lon2 - lon1) * Real.pi / 180 / 2) *
      Real.sin ((lon2 - lon1) * Real.pi / 180 / 2))),
      Real.sqrt (Real.sin ((0 - 0) * Real.pi / 180 / 2) *
      Real.sin ((0 - 0) * Real.pi / 180 / 2) + Real.cos (0 * Real.pi / 180) *
      Real.cos (0 * Real.pi / 180) * Real.sin ((lon2 - lon1) * Real.pi / 180 / 2) *
      Real.sin ((lon2 - lon1) * Real.pi / 180 / 2))⟩) = _
  have ha : Real.sin ((0 - 0) * Real.pi / 180 / 2) *
      Real.sin ((0 - 0) * Real.pi / 180 / 2) + Real.cos (0 * Real.pi / 180) *
      Real.cos (0 * Real.pi / 180) * Real.sin ((lon2 - lon1) * Real.pi / 180 / 2) *
      Real.sin ((lon2 - lon1) * Real.pi / 180 / 2) =
      Real.sin (|lon2 - lon1| * Real.pi / 180 / 2) *
        Real.sin (|lon2 - lon1| * Real.pi / 180 / 2) := by
    rw [← hsq]
    simp
  rw [ha, arg_sqrt_cos_sin _ hθ0 hθ1]
  ring

end Reals

section Pipeline

variable {K : Type} [LinearOrderedField K] [FloorRing K]

/-! ## The preview pipeline -/

theorem prefix_computeRoutePoints (basePoints : List (Point K)) (laps : K) :
    basePoints <+: computeRoutePoints basePoints laps := by
  unfold computeRoutePoints
  obtain ⟨m, hm⟩ : ∃ m, lapIterations laps = m + 1 :=
    ⟨lapIterations laps - 1, by have := lapIterations_pos laps; omega⟩
  rw [hm, List.range_succ_eq_map]
  simp only [List.map_cons, List.flatten_cons]
  exact List.prefix_append _ _

theorem mem_computeRoutePoints (basePoints : List (Point K)) (laps : K) (q : Point K)
    (hq : q ∈ computeRoutePoints basePoints laps) : q ∈ basePoints := by
  unfold computeRoutePoints at hq
  rw [List.mem_flatten] at hq
  obtain ⟨l, hl, hql⟩ := hq
  rw [List.mem_map] at hl
  obtain ⟨_, _, rfl⟩ := hl
  exact hql

theorem previewHandler_valid (M : MathFns K) (parseDate : String → Option ℤ) (rnd : ℕ → K)
    (body : Body K) (st : String) (d : ℤ) (route : List (Point K))
    (hst : body.startTime = some st) (hne : st ≠ "") (hpts : body.points = some route)
    (hlen : 2 ≤ route.length) (hd : parseDate st = some d) :
    previewHandler M parseDate rnd body =
      if (computeDistancesAndTotal M (computeRoutePoints (buildClosedBasePoints M route)
          (parseActivityParams body).laps)).totalDist = 0 then
        some (.error 400 "轨迹距离为 0，请绘制更长的路线")
      else
        match (parseActivityParams body).paceSecondsPerKm with
        | .fin pace =>
          match computeSamples M
              (computeRoutePoints (buildClosedBasePoints M route) (parseActivityParams body).laps)
              (computeDistancesAndTotal M (computeRoutePoints (buildClosedBasePoints M route)
                (parseActivityParams body).laps)).distances
              (computeDistancesAndTotal M (computeRoutePoints (buildClosedBasePoints M route)
                (parseActivityParams body).laps)).totalDist
              pace (parseActivityParams body).hrRestVal (parseActivityParams body).hrMaxVal
              rnd with
          | none => some (.error 500 "生成预览失败")
          | some r =>
            some (.preview
              (computeDistancesAndTotal M (computeRoutePoints (buildClosedBasePoints M route)
                (parseActivityParams body).laps)).totalDist r.totalDurationSec r.samples)
        | _ => some .infinitePace := by
  unfold previewHandler
  rw [validateRequest_valid parseDate body st d route hst hne hpts hlen hd]
  simp only [hpts, Option.getD_some]

theorem parseActivityParams_pace (body : Body K) (pace : K)
    (h : body.paceSecondsPerKm = .fin pace) (hp : 0 < pace) :
    (parseActivityParams body).paceSecondsPerKm = .fin pace := by
  simp [parseActivityParams, h, JsNum.gt, hp]

/-- The preview handler on a valid request with a finite positive pace and a route of
positive length: it answers with the samples of `computeSamples` on the closed, expanded
route, described index by index. -/
theorem previewHandler_samples (M : MathFns K) (hM : M.Lawful)
    (parseDate : String → Option ℤ) (rnd : ℕ → K) (body : Body K) (st : String) (d : ℤ)
    (route allPoints : List (Point K)) (pace : K)
    (hst : body.startTime = some st) (hne : st ≠ "") (hpts : body.points = some route)
    (hlen : 2 ≤ route.length) (hd : parseDate st = some d)
    (hpace : body.paceSecondsPerKm = .fin pace) (hp : 0 < pace)
    (hdist : 0 < (computeDistancesAndTotal M route).totalDist)
    (hall : allPoints = computeRoutePoints (buildClosedBasePoints M route)
      (parseActivityParams body).laps) :
    ∃ r : SamplesResult K, previewHandler M parseDate rnd body =
        some (.preview (computeDistancesAndTotal M allPoints).totalDist
          r.totalDurationSec r.samples) ∧
      route <+: allPoints ∧
      0 < (computeDistancesAndTotal M allPoints).totalDist ∧
      r.samples.length = allPoints.length ∧
      r.samples.getLast?.map Sample.timeSec = some r.totalDurationSec ∧
      r.totalDurationSec = (computeDistancesAndTotal M allPoints).totalDist / 1000 * pace ∧
      ∀ k p, allPoints[k]? = some p →
        r.samples[k]? = some (sampleAt M (computeDistancesAndTotal M allPoints).distances
          (computeDistancesAndTotal M allPoints).totalDist pace
          (parseActivityParams body).hrRestVal (parseActivityParams body).hrMaxVal rnd
          allPoints.length k p) := by
  have hpre : route <+: allPoints := by
    rw [hall]
    exact (prefix_buildClosedBasePoints M route).trans (prefix_computeRoutePoints _ _)
  have hrne : route ≠ [] := by
    intro h; rw [h] at hlen; simp at hlen
  have hn : 2 ≤ allPoints.length := le_trans hlen hpre.length_le
  have hane : allPoints ≠ [] := by
    intro h; rw [h] at hn; simp at hn
  have htot : 0 < (computeDistancesAndTotal M allPoints).totalDist := by
    obtain ⟨zs, hzs⟩ := hpre
    rw [← hzs]
    exact lt_of_lt_of_le hdist (computeDistancesAndTotal_total_append M hM route zs hrne)
  obtain ⟨r, s, hr, hs, hdur, htime⟩ := computeSamples_last_time M allPoints
    (computeDistancesAndTotal M allPoints).distances
    (computeDistancesAndTotal M allPoints).totalDist pace
    (parseActivityParams body).hrRestVal (parseActivityParams body).hrMaxVal rnd hn
    (computeDistancesAndTotal_length M allPoints hane)
    (computeDistancesAndTotal_zero M allPoints)
    (fun i hi => computeDistancesAndTotal_mono M hM allPoints i
      (by rw [computeDistancesAndTotal_length M allPoints hane] at hi; exact hi))
    (computeDistancesAndTotal_getLast M allPoints) htot hp
  obtain ⟨hl, hidx⟩ := computeSamples_sampleAt M allPoints _ _ _ _ _ _ r hr
  refine ⟨r, ?_, hpre, htot, hl, ?_, ?_, hidx⟩
  · rw [previewHandler_valid M parseDate rnd body st d route hst hne hpts hlen hd, ← hall,
      if_neg (ne_of_gt htot), parseActivityParams_pace body pace hpace hp]
    simp only [hr]
  · rw [hs, hdur]; rfl
  · rw [hdur, htime]

/-- A request body with a well-formed start time, the given route, pace and lap count, and
no heart-rate or variant fields. -/
def simpleBody (route : List (Point K)) (pace laps : K) : Body K :=
  { startTime := some "2024-01-01T00:00:00.000Z"
    points := some route
    paceSecondsPerKm := .fin pace
    hrRest := .nan
    hrMax := .nan
    lapCount := .fin laps
    variantIndex := .nan }

theorem simpleBody_laps_one (route : List (Point K)) (pace : K) :
    (parseActivityParams (simpleBody route pace 1)).laps = 1 := by
  simp [parseActivityParams, simpleBody, JsNum.isFinite, JsNum.gt, JsNum.finOr, jsFloor,
    LAP_MIN_COUNT]

/-- Claim C2, amended (time never runs backwards): for a valid request with a route of at
least two points and positive total distance, any lap count and a pace above 0, the preview
answers with samples whose first `timeSec` is 0 and whose `timeSec` never decreases from one
sample to the next; it increases strictly exactly where the distance increases, and stays
equal across a segment of length 0. -/
theorem preview_time_nondecreasing (M : MathFns K) (hM : M.Lawful)
    (parseDate : String → Option ℤ) (rnd : ℕ → K) (body : Body K) (st : String) (d : ℤ)
    (route : List (Point K)) (pace : K)
    (hst : body.startTime = some st) (hne : st ≠ "") (hpts : body.points = some route)
    (hlen : 2 ≤ route.length) (hd : parseDate st = some d)
    (hpace : body.paceSecondsPerKm = .fin pace) (hp : 0 < pace)
    (hdist : 0 < (computeDistancesAndTotal M route).totalDist) :
    ∃ td dur samples, previewHandler M parseDate rnd body = some (.preview td dur samples) ∧
      samples[0]?.map Sample.timeSec = some 0 ∧
      ∀ i s t, samples[i]? = some s → samples[i + 1]? = some t →
        s.timeSec ≤ t.timeSec ∧
        (s.distance < t.distance → s.timeSec < t.timeSec) ∧
        (s.distance = t.distance → s.timeSec = t.timeSec) := by
  obtain ⟨r, hresp, hpre, htot, hl, _, _, hidx⟩ := previewHandler_samples M hM parseDate rnd
    body st d route _ pace hst hne hpts hlen hd hpace hp hdist rfl
  refine ⟨_, _, _, hresp, ?_, ?_⟩
  · have h0 : 0 < (computeRoutePoints (buildClosedBasePoints M route)
        (parseActivityParams body).laps).length := by
      have := hpre.length_le; omega
    rw [hidx 0 _ (List.getElem?_eq_getElem h0)]
    simp [sampleAt, rawElapsed]
  · intro i s t hs ht
    have hi1 : i + 1 < (computeRoutePoints (buildClosedBasePoints M route)
        (parseActivityParams body).laps).length := by
      rw [← hl]
      by_contra hcon
      rw [List.getElem?_eq_none (by omega)] at ht
      exact Option.noConfusion ht
    have hi0 : i < (computeRoutePoints (buildClosedBasePoints M route)
        (parseActivityParams body).laps).length := by omega
    rw [hidx i _ (List.getElem?_eq_getElem hi0)] at hs
    rw [hidx (i + 1) _ (List.getElem?_eq_getElem hi1)] at ht
    rw [← Option.some.inj hs, ← Option.some.inj ht]
    exact sampleAt_time_step M _ _ pace _ _ rnd _ i _ _ htot hp
      (computeDistancesAndTotal_mono M hM _ i hi1)

/-- A request whose route starts with the same point twice: the first two samples of the
preview carry the same `timeSec`. -/
theorem preview_duplicate_start (M : MathFns K) (hM : M.Lawful)
    (hdist : 0 < (computeDistancesAndTotal M [⟨0, 0⟩, ⟨0, 0⟩, ⟨0, 1⟩]).totalDist) :
    ∃ td dur samples s t,
      previewHandler M (fun _ => some 0) (fun _ => 0)
        (simpleBody [⟨0, 0⟩, ⟨0, 0⟩, ⟨0, 1⟩] 360 1) = some (.preview td dur samples) ∧
      samples[0]? = some s ∧ samples[1]? = some t ∧ ¬ s.timeSec < t.timeSec := by
  obtain ⟨r, hresp, hpre, htot, hl, _, _, hidx⟩ := previewHandler_samples M hM
    (fun _ => some 0) (fun _ => 0) (simpleBody [⟨0, 0⟩, ⟨0, 0⟩, ⟨0, 1⟩] 360 1)
    "2024-01-01T00:00:00.000Z" 0 [⟨0, 0⟩, ⟨0, 0⟩, ⟨0, 1⟩] _ 360 rfl (by decide) rfl (by simp) rfl
    rfl (by norm_num) hdist rfl
  obtain ⟨zs, hzs⟩ := hpre
  have h0 : (computeRoutePoints (buildClosedBasePoints M [⟨0, 0⟩, ⟨0, 0⟩, ⟨0, 1⟩])
      (parseActivityParams (simpleBody [⟨0, 0⟩, ⟨0, 0⟩, ⟨0, 1⟩] 360 1)).laps)[0]? =
      some (⟨0, 0⟩ : Point K) := by
    rw [← hzs]; rfl
  have h1 : (computeRoutePoints (buildClosedBasePoints M [⟨0, 0⟩, ⟨0, 0⟩, ⟨0, 1⟩])
      (parseActivityParams (simpleBody [⟨0, 0⟩, ⟨0, 0⟩, ⟨0, 1⟩] 360 1)).laps)[0 + 1]? =
      some (⟨0, 0⟩ : Point K) := by
    rw [← hzs]; rfl
  refine ⟨_, _, _, _, _, hresp, hidx 0 _ h0, hidx 1 _ h1, ?_⟩
  have hstep := computeDistancesAndTotal_step M _ 0 _ _ h0 h1
  rw [haversineDistance_self M hM, add_zero] at hstep
  have hz := computeDistancesAndTotal_zero M
    (computeRoutePoints (buildClosedBasePoints M [⟨0, 0⟩, ⟨0, 0⟩, ⟨0, 1⟩])
      (parseActivityParams (simpleBody [⟨0, 0⟩, ⟨0, 0⟩, ⟨0, 1⟩] 360 1)).laps)
  have := (sampleAt_time_step M _ _ 360 (parseActivityParams
    (simpleBody [⟨0, 0⟩, ⟨0, 0⟩, ⟨0, 1⟩] 360 1)).hrRestVal (parseActivityParams
    (simpleBody [⟨0, 0⟩, ⟨0, 0⟩, ⟨0, 1⟩] 360 1)).hrMaxVal (fun _ => 0)
    (computeRoutePoints (buildClosedBasePoints M [⟨0, 0⟩, ⟨0, 0⟩, ⟨0, 1⟩])
      (parseActivityParams (simpleBody [⟨0, 0⟩, ⟨0, 0⟩, ⟨0, 1⟩] 360 1)).laps).length
    0 ⟨0, 0⟩ ⟨0, 0⟩ htot (by norm_num) (le_of_eq hstep.symm)).2.2 hstep.symm
  exact not_lt_of_ge (le_of_eq this.symm)

theorem previewHandler_preview_ne_zero (M : MathFns K) (parseDate : String → Option ℤ)
    (rnd : ℕ → K) (body : Body K) (td dur : K) (samples : List (Sample K))
    (h : previewHandler M parseDate rnd body = some (.preview td dur samples)) : td ≠ 0 := by
  unfold previewHandler at h
  split at h
  · exact Option.noConfusion h
  · simp only at h
    split at h
    · simp at h
    · rename_i hne
      split at h
      · split at h
        · simp at h
        · simp only [Option.some.injEq, Response.preview.injEq] at h
          rw [← h.1]; exact hne
      · simp at h

/-- Claim C9 (degenerate route is rejected): for a valid request whose points all coincide,
with any lap count, the closed and expanded route has total distance exactly 0 and the
preview answers with the status-400 error before `computeSamples`; and whenever the preview
answers with samples, the total distance it reports, with which `computeSamples` ran, is not
0. -/
theorem preview_degenerate_route (M : MathFns K) (hM : M.Lawful)
    (parseDate : String → Option ℤ) (rnd : ℕ → K) (body : Body K) (st : String) (d : ℤ)
    (route : List (Point K)) (p : Point K)
    (hst : body.startTime = some st) (hne : st ≠ "") (hpts : body.points = some route)
    (hlen : 2 ≤ route.length) (hd : parseDate st = some d) (hsame : ∀ q ∈ route, q = p) :
    (computeDistancesAndTotal M (computeRoutePoints (buildClosedBasePoints M route)
      (parseActivityParams body).laps)).totalDist = 0 ∧
    previewHandler M parseDate rnd body = some (.error 400 "轨迹距离为 0，请绘制更长的路线") ∧
    ∀ (other : Body K) (td dur : K) (samples : List (Sample K)),
      previewHandler M parseDate rnd other = some (.preview td dur samples) → td ≠ 0 := by
  have htot : (computeDistancesAndTotal M (computeRoutePoints (buildClosedBasePoints M route)
      (parseActivityParams body).laps)).totalDist = 0 := by
    rw [buildClosedBasePoints_const M hM route p hsame]
    exact computeDistancesAndTotal_const M hM _ p fun q hq =>
      hsame q (mem_computeRoutePoints route _ q hq)
  refine ⟨htot, ?_, fun other td dur samples h =>
    previewHandler_preview_ne_zero M parseDate rnd other td dur samples h⟩
  rw [previewHandler_valid M parseDate rnd body st d route hst hne hpts hlen hd, if_pos htot]

/-- Claim C8, the code at the failing inputs: when `startTime` is missing, when it does not
parse, or when there is a single point, `validateRequest` reports the request as invalid and
both handlers return without writing any response: no error reaches the caller. -/
theorem invalid_request_no_response (M : MathFns K) (parseDate : String → Option ℤ)
    (rnd : ℕ → K) (points : Option (List (Point K))) (route : List (Point K)) (p : Point K)
    (st : String) (pace hrRest hrMax lapCount variantIndex : JsNum K) :
    (validateRequest parseDate ⟨none, points, pace, hrRest, hrMax, lapCount, variantIndex⟩ =
        .invalid "缺少参数：需要 startTime" ∧
      previewHandler M parseDate rnd
        ⟨none, points, pace, hrRest, hrMax, lapCount, variantIndex⟩ = none ∧
      generateFitHandler M parseDate rnd
        ⟨none, points, pace, hrRest, hrMax, lapCount, variantIndex⟩ = none) ∧
    (previewHandler M parseDate rnd
        ⟨some st, some [p], pace, hrRest, hrMax, lapCount, variantIndex⟩ = none ∧
      generateFitHandler M parseDate rnd
        ⟨some st, some [p], pace, hrRest, hrMax, lapCount, variantIndex⟩ = none) ∧
    (previewHandler M (fun _ => none) rnd
        ⟨some st, some route, pace, hrRest, hrMax, lapCount, variantIndex⟩ = none ∧
      generateFitHandler M (fun _ => none) rnd
        ⟨some st, some route, pace, hrRest, hrMax, lapCount, variantIndex⟩ = none) := by
  refine ⟨⟨rfl, rfl, rfl⟩, ⟨?_, ?_⟩, ⟨?_, ?_⟩⟩
  · by_cases h : st = "" <;> simp [previewHandler, validateRequest, h, MIN_POINTS]
  · by_cases h : st = "" <;> simp [generateFitHandler, validateRequest, h, MIN_POINTS]
  · by_cases h : st = "" <;> by_cases h2 : route.length < MIN_POINTS <;>
      simp [previewHandler, validateRequest, h, h2]
  · by_cases h : st = "" <;> by_cases h2 : route.length < MIN_POINTS <;>
      simp [generateFitHandler, validateRequest, h, h2]

end Pipeline

section Scenario

/-! ## The two-point scenario on the real functions -/

theorem abs_hundredth_sub_zero : |(0.01 : ℝ) - 0| = 0.01 := by
  rw [sub_zero]; exact abs_of_pos (by norm_num)

theorem abs_zero_sub_hundredth : |(0 : ℝ) - 0.01| = 0.01 := by
  rw [zero_sub, abs_neg]; exact abs_of_pos (by norm_num)

theorem scenario_allPoints (M : MathFns ℝ)
    (heq : ∀ lon1 lon2 : ℝ, |lon2 - lon1| ≤ 180 →
      haversineDistance M 0 lon1 0 lon2 = 6371000 * (|lon2 - lon1| * Real.pi / 180)) :
    computeRoutePoints (buildClosedBasePoints M [⟨0, 0⟩, ⟨0, 0.01⟩])
      (parseActivityParams (simpleBody [⟨0, 0⟩, ⟨0, 0.01⟩] 360 1)).laps =
      [⟨0, 0⟩, ⟨0, 0.01⟩, ⟨0, 0⟩] := by
  rw [simpleBody_laps_one, computeRoutePoints_one,
    buildClosedBasePoints_eq M [⟨0, 0⟩, ⟨0, 0.01⟩] ⟨0, 0⟩ ⟨0, 0.01⟩ (by simp) rfl rfl]
  have h := heq 0 0.01 (by rw [abs_hundredth_sub_zero]; norm_num)
  rw [abs_hundredth_sub_zero] at h
  have hpi := Real.pi_gt_three
  have hge : ¬ haversineDistance M 0 0 0 0.01 < CLOSED_THRESHOLD_METERS := by
    rw [h, not_lt]
    norm_num [CLOSED_THRESHOLD_METERS]
    linarith
  simp only [hge, if_false]
  rfl

theorem scenario_total (M : MathFns ℝ)
    (heq : ∀ lon1 lon2 : ℝ, |lon2 - lon1| ≤ 180 →
      haversineDistance M 0 lon1 0 lon2 = 6371000 * (|lon2 - lon1| * Real.pi / 180)) :
    (computeDistancesAndTotal M [⟨0, 0⟩, ⟨0, 0.01⟩, ⟨0, 0⟩]).totalDist =
      2 * (6371000 * (0.01 * Real.pi / 180)) := by
  have h1 := heq 0 0.01 (by rw [abs_hundredth_sub_zero]; norm_num)
  have h2 := heq 0.01 0 (by rw [abs_zero_sub_hundredth]; norm_num)
  rw [abs_hundredth_sub_zero] at h1
  rw [abs_zero_sub_hundredth] at h2
  simp only [computeDistancesAndTotal, distLoop, h1, h2]
  ring

theorem pair_total (M : MathFns ℝ)
    (heq : ∀ lon1 lon2 : ℝ, |lon2 - lon1| ≤ 180 →
      haversineDistance M 0 lon1 0 lon2 = 6371000 * (|lon2 - lon1| * Real.pi / 180))
    (x : ℝ) (hx : 0 < x) (hx2 : x ≤ 180) :
    0 < (computeDistancesAndTotal M [⟨0, 0⟩, ⟨0, x⟩]).totalDist := by
  have h1 := heq 0 x (by rw [sub_zero, abs_of_pos hx]; exact hx2)
  have hpi := Real.pi_pos
  simp only [computeDistancesAndTotal, distLoop, h1, sub_zero, abs_of_pos hx, zero_add]
  positivity

theorem scenario_preview (M : MathFns ℝ) (hM : M.Lawful)
    (heq : ∀ lon1 lon2 : ℝ, |lon2 - lon1| ≤ 180 →
      haversineDistance M 0 lon1 0 lon2 = 6371000 * (|lon2 - lon1| * Real.pi / 180))
    (d : ℤ) (rnd : ℕ → ℝ) :
    ∃ r : SamplesResult ℝ,
      previewHandler M (fun _ => some d) rnd (simpleBody [⟨0, 0⟩, ⟨0, 0.01⟩] 360 1) =
        some (.preview (2 * (6371000 * (0.01 * Real.pi / 180))) r.totalDurationSec r.samples) ∧
      r.totalDurationSec = 2 * (6371000 * (0.01 * Real.pi / 180)) / 1000 * 360 ∧
      r.samples.length = 3 ∧
      r.samples[0]?.map Sample.timeSec = some 0 ∧
      r.samples.getLast?.map Sample.timeSec = some r.totalDurationSec := by
  obtain ⟨r, hresp, _, _, hl, hlast, hdur, hidx⟩ := previewHandler_samples M hM
    (fun _ => some d) rnd (simpleBody [⟨0, 0⟩, ⟨0, 0.01⟩] 360 1)
    "2024-01-01T00:00:00.000Z" d [⟨0, 0⟩, ⟨0, 0.01⟩] [⟨0, 0⟩, ⟨0, 0.01⟩, ⟨0, 0⟩] 360 rfl
    (by decide) rfl (by simp) rfl rfl (by norm_num)
    (pair_total M heq 0.01 (by norm_num) (by norm_num)) (scenario_allPoints M heq).symm
  rw [scenario_total M heq] at hresp hdur
  refine ⟨r, hresp, hdur, hl, ?_, hlast⟩
  rw [hidx 0 ⟨0, 0⟩ rfl]
  simp [sampleAt, rawElapsed]

theorem triple_total (M : MathFns ℝ) (hM : M.Lawful)
    (heq : ∀ lon1 lon2 : ℝ, |lon2 - lon1| ≤ 180 →
      haversineDistance M 0 lon1 0 lon2 = 6371000 * (|lon2 - lon1| * Real.pi / 180)) :
    0 < (computeDistancesAndTotal M [⟨0, 0⟩, ⟨0, 0⟩, ⟨0, 1⟩]).totalDist := by
  have h1 := heq 0 1 (by norm_num)
  have hpi := Real.pi_pos
  simp only [computeDistancesAndTotal, distLoop, haversineDistance_self M hM, h1]
  norm_num
  positivity

/-- Witness for C1 on the real functions: two points 1000 metres apart at 360 s/km. -/
theorem computeSamples_duration_exact_witness :
    OnReals fun M =>
      ∃ r s, computeSamples M [⟨0, 0⟩, ⟨0, 1⟩] [0, 1000] 1000 360 60 180 (fun _ => 0) = some r ∧
        r.samples.getLast? = some s ∧
        r.totalDurationSec = s.timeSec ∧
        s.timeSec = 1000 / 1000 * 360 ∧
        |s.timeSec - 1000 / 1000 * 360| ≤ 1e-6 * (1000 / 1000 * 360) :=
  computeSamples_duration_exact _ [⟨0, 0⟩, ⟨0, 1⟩] [0, 1000] 1000 360 60 180 (fun _ => 0)
    (by simp) (by simp) (by simp)
    (by
      intro i hi
      have : i = 0 := by simp at hi; omega
      subst this; simp)
    (by simp) (by norm_num) (by norm_num) (by intro k; norm_num)

/-- Witness for C3 on the real functions: resting 60, maximum 180. -/
theorem computeSamples_heartRate_bounds_witness :
    OnReals fun M =>
      ([(⟨0, 0⟩ : Point ℝ), ⟨0, 1⟩] ≠ [] →
        ∃ r, computeSamples M [⟨0, 0⟩, ⟨0, 1⟩] [0, 1000] 1000 360 ((60 : ℤ) : ℝ) ((180 : ℤ) : ℝ)
          (fun _ => 0) = some r) ∧
      ∀ r, computeSamples M [⟨0, 0⟩, ⟨0, 1⟩] [0, 1000] 1000 360 ((60 : ℤ) : ℝ) ((180 : ℤ) : ℝ)
          (fun _ => 0) = some r →
        ∀ s ∈ r.samples, ∃ z : ℤ, s.heartRate = (z : ℝ) ∧ 60 ≤ z ∧ z ≤ 180 :=
  computeSamples_heartRate_bounds _ [⟨0, 0⟩, ⟨0, 1⟩] [0, 1000] 1000 360 60 180 (fun _ => 0)
    (by norm_num) (by norm_num) (by norm_num) (by intro k; norm_num)

/-- Counterexample to C2 as stated: the route (0,0), (0,0), (0,1) has positive total
distance, yet the first two samples of its preview have equal `timeSec`. -/
theorem preview_time_not_strictly_increasing :
    OnReals fun M =>
      0 < (computeDistancesAndTotal M [⟨0, 0⟩, ⟨0, 0⟩, ⟨0, 1⟩]).totalDist ∧
      ∃ td dur samples s t,
        previewHandler M (fun _ => some 0) (fun _ => 0)
          (simpleBody [⟨0, 0⟩, ⟨0, 0⟩, ⟨0, 1⟩] 360 1) = some (.preview td dur samples) ∧
        samples[0]? = some s ∧ samples[1]? = some t ∧ ¬ s.timeSec < t.timeSec :=
  ⟨triple_total _ real_lawful fun a b h => real_haversine_equator a b h,
    preview_duplicate_start _ real_lawful
      (triple_total _ real_lawful fun a b h => real_haversine_equator a b h)⟩

/-- Witness for C2 on the real functions: the two-point route of the scenario. -/
theorem preview_time_nondecreasing_witness :
    OnReals fun M =>
      ∃ td dur samples,
        previewHandler M (fun _ => some 0) (fun _ => 0)
          (simpleBody [⟨0, 0⟩, ⟨0, 0.01⟩] 360 1) = some (.preview td dur samples) ∧
        samples[0]?.map Sample.timeSec = some 0 ∧
        ∀ i s t, samples[i]? = some s → samples[i + 1]? = some t →
          s.timeSec ≤ t.timeSec ∧
          (s.distance < t.distance → s.timeSec < t.timeSec) ∧
          (s.distance = t.distance → s.timeSec = t.timeSec) :=
  preview_time_nondecreasing _ real_lawful (fun _ => some 0) (fun _ => 0)
    (simpleBody [⟨0, 0⟩, ⟨0, 0.01⟩] 360 1) "2024-01-01T00:00:00.000Z" 0
    [⟨0, 0⟩, ⟨0, 0.01⟩] 360 rfl (by decide) rfl (by simp) rfl rfl (by norm_num)
    (pair_total _ (fun a b h => real_haversine_equator a b h) 0.01 (by norm_num) (by norm_num))

/-- Counterexample to C7 as stated: for the route (0,0), (0,0.01) with one lap at 360 s/km
the preview reports a total distance farther than 1 metre from 1112.3 and a duration farther
than 1 second from 400.4. -/
theorem preview_scenario_not_single_leg :
    OnReals fun M =>
      ∃ td dur samples,
        previewHandler M (fun _ => some 0) (fun _ => 0)
          (simpleBody [⟨0, 0⟩, ⟨0, 0.01⟩] 360 1) = some (.preview td dur samples) ∧
        ¬ |td - 1112.3| ≤ 1 ∧ ¬ |dur - 400.4| ≤ 1 := by
  obtain ⟨r, hresp, hdur, _, _, _⟩ := scenario_preview _ real_lawful
    (fun a b h => real_haversine_equator a b h) 0 (fun _ => 0)
  refine ⟨_, _, _, hresp, ?_, ?_⟩
  · have hpi := Real.pi_gt_three
    rw [abs_le, not_and_or]
    right
    norm_num
    linarith
  · have hpi := Real.pi_gt_three
    rw [hdur, abs_le, not_and_or]
    right
    norm_num
    linarith

/-- Claim C7, amended (the scenario closes the loop): for the route (0,0), (0,0.01) with one
lap at 360 s/km, whatever the start date and the random draws, the route is closed by a
return leg, so the preview reports three samples, a total distance within 1 metre of 2223.9,
a duration within 1 second of 800.6, a first `timeSec` of 0 and a last `timeSec` equal to
the duration. -/
theorem preview_scenario_closed_loop (d : ℤ) (rnd : ℕ → ℝ) :
    OnReals fun M =>
      ∃ td dur samples,
        previewHandler M (fun _ => some d) rnd
          (simpleBody [⟨0, 0⟩, ⟨0, 0.01⟩] 360 1) = some (.preview td dur samples) ∧
        samples.length = 3 ∧
        |td - 2223.9| ≤ 1 ∧ |dur - 800.6| ≤ 1 ∧
        samples[0]?.map Sample.timeSec = some 0 ∧
        samples.getLast?.map Sample.timeSec = some dur := by
  obtain ⟨r, hresp, hdur, hl, h0, hlast⟩ := scenario_preview _ real_lawful
    (fun a b h => real_haversine_equator a b h) d rnd
  have hlo := Real.pi_gt_d6
  have hhi := Real.pi_lt_d6
  refine ⟨_, _, _, hresp, hl, ?_, ?_, h0, hlast⟩
  · rw [abs_le]
    constructor <;> norm_num <;> linarith
  · rw [hdur, abs_le]
    constructor <;> norm_num <;> linarith

/-- Witness for C9 on the real functions: three copies of the point (1,2), three laps. -/
theorem preview_degenerate_route_witness :
    OnReals fun M =>
      (computeDistancesAndTotal M (computeRoutePoints
        (buildClosedBasePoints M [⟨1, 2⟩, ⟨1, 2⟩, ⟨1, 2⟩])
        (parseActivityParams (simpleBody [⟨1, 2⟩, ⟨1, 2⟩, ⟨1, 2⟩] 360 3)).laps)).totalDist = 0 ∧
      previewHandler M (fun _ => some 0) (fun _ => 0)
        (simpleBody [⟨1, 2⟩, ⟨1, 2⟩, ⟨1, 2⟩] 360 3) =
        some (.error 400 "轨迹距离为 0，请绘制更长的路线") ∧
      ∀ (other : Body ℝ) (td dur : ℝ) (samples : List (Sample ℝ)),
        previewHandler M (fun _ => some 0) (fun _ => 0) other =
          some (.preview td dur samples) → td ≠ 0 :=
  preview_degenerate_route _ real_lawful (fun _ => some 0) (fun _ => 0)
    (simpleBody [⟨1, 2⟩, ⟨1, 2⟩, ⟨1, 2⟩] 360 3) "2024-01-01T00:00:00.000Z" 0
    [⟨1, 2⟩, ⟨1, 2⟩, ⟨1, 2⟩] ⟨1, 2⟩ rfl (by decide) rfl (by simp) rfl (by simp)

end Scenario

end FitGenerator

namespace FitGenerator

open CONSTANTS

section Speed

variable {K : Type} [LinearOrderedField K]

/-! ## The real functions satisfy the trigonometric laws -/

theorem real_trigLawful : OnReals fun M => M.TrigLawful := by
  refine ⟨Real.neg_one_le_sin, ?_, fun x hx => Real.sqrt_mul_self hx⟩
  intro x
  show Real.sin x * Real.sin x + Real.cos x * Real.cos x = 1
  have := Real.sin_sq_add_cos_sq x
  nlinarith

/-! ## Activity synthesis: speed -/

theorem baseSpeedFactor_ge (rnd : ℕ → K) (h : 0 ≤ rnd 0) : 0.98 ≤ baseSpeedFactor rnd := by
  unfold baseSpeedFactor BASE_SPEED_FACTOR_MIN BASE_SPEED_FACTOR_RANGE
  have : 0 ≤ rnd 0 * 0.06 := mul_nonneg h (by norm_num)
  linarith

/-- The raw speed never falls below 0.98 * 0.94 of the target average speed. -/
theorem instSpeedRaw_ge (M : MathFns K) (hT : M.TrigLawful) (distances : List K)
    (totalDist pace : K) (rnd : ℕ → K) (i : ℕ) (hpos : 0 < totalDist) (hpace : 0 < pace)
    (h : 0 ≤ rnd 0) :
    avgSpeedTarget totalDist pace * 0.98 * 0.94 ≤
      instSpeedRaw M distances totalDist pace rnd i := by
  have havg := avgSpeedTarget_pos totalDist pace hpos hpace
  have hb := baseSpeedFactor_ge rnd h
  have h1 := hT.neg_one_le_sin (fracAt distances totalDist i * M.pi * 2 + rnd 1 * M.pi * 2)
  have h2 := hT.neg_one_le_sin (fracAt distances totalDist i * M.pi * 6 + rnd 2 * M.pi * 2)
  have hw : (0.94 : K) ≤ 1 + 0.04 * M.sin (fracAt distances totalDist i * M.pi * 2 +
      rnd 1 * M.pi * 2) + 0.02 * M.sin (fracAt distances totalDist i * M.pi * 6 +
      rnd 2 * M.pi * 2) := by
    linarith
  have hab : avgSpeedTarget totalDist pace * 0.98 ≤
      avgSpeedTarget totalDist pace * baseSpeedFactor rnd :=
    mul_le_mul_of_nonneg_left hb havg.le
  have hab0 : 0 ≤ avgSpeedTarget totalDist pace * 0.98 := mul_nonneg havg.le (by norm_num)
  show _ ≤ avgSpeedTarget totalDist pace * baseSpeedFactor rnd * _
  exact mul_le_mul hab hw (by norm_num) (le_trans hab0 hab)

theorem instSpeedRaw_pos (M : MathFns K) (hT : M.TrigLawful) (distances : List K)
    (totalDist pace : K) (rnd : ℕ → K) (i : ℕ) (hpos : 0 < totalDist) (hpace : 0 < pace)
    (h : 0 ≤ rnd 0) : 0 < instSpeedRaw M distances totalDist pace rnd i := by
  have havg := avgSpeedTarget_pos totalDist pace hpos hpace
  have hlow : 0 < avgSpeedTarget totalDist pace * 0.98 * 0.94 := by positivity
  exact lt_of_lt_of_le hlow (instSpeedRaw_ge M hT distances totalDist pace rnd i hpos hpace h)

/-- Consecutive samples: reported speed times elapsed time is the distance covered. -/
theorem sampleAt_speed_step [FloorRing K] (M : MathFns K) (distances : List K)
    (totalDist pace hrRest hrMax : K) (rnd : ℕ → K) (n k : ℕ) (p q : Point K)
    (hpos : 0 < totalDist) (hpace : 0 < pace)
    (hinst : 0 < instSpeedRaw M distances totalDist pace rnd (k + 1)) :
    (sampleAt M distances totalDist pace hrRest hrMax rnd n (k + 1) q).speed *
        ((sampleAt M distances totalDist pace hrRest hrMax rnd n (k + 1) q).timeSec -
          (sampleAt M distances totalDist pace hrRest hrMax rnd n k p).timeSec) =
      (sampleAt M distances totalDist pace hrRest hrMax rnd n (k + 1) q).distance -
        (sampleAt M distances totalDist pace hrRest hrMax rnd n k p).distance := by
  have hs := scale_pos M distances totalDist pace rnd n hpos hpace
  simp only [sampleAt, rawElapsed_succ, segDurationRaw, Nat.add_sub_cancel, if_pos hinst]
  field_simp
  ring

theorem noiseRadius_bounds (rnd : ℕ → K) (k : ℕ) (h : 0 ≤ rnd k ∧ rnd k < 1) :
    (5 : K) ≤ NOISE_RADIUS_MIN + rnd k * (NOISE_RADIUS_MAX - NOISE_RADIUS_MIN) ∧
      NOISE_RADIUS_MIN + rnd k * (NOISE_RADIUS_MAX - NOISE_RADIUS_MIN) ≤ (10 : K) := by
  unfold NOISE_RADIUS_MIN NOISE_RADIUS_MAX
  constructor <;> linarith [h.1, h.2]

theorem noiseOffset_magnitude (M : MathFns K) (hT : M.TrigLawful) (r angle : K) (hr : 0 ≤ r) :
    M.sqrt (r * M.cos angle * (r * M.cos angle) + r * M.sin angle * (r * M.sin angle)) = r := by
  have h : r * M.cos angle * (r * M.cos angle) + r * M.sin angle * (r * M.sin angle) =
      r * r := by
    have := hT.sin_sq_add_cos_sq angle
    calc r * M.cos angle * (r * M.cos angle) + r * M.sin angle * (r * M.sin angle)
        = r * r * (M.sin angle * M.sin angle + M.cos angle * M.cos angle) := by ring
      _ = r * r := by rw [this, mul_one]
  rw [h, hT.sqrt_mul_self r hr]

/-- Claim C16 (positive speed): with `totalDist > 0`, a pace above 0, a non-decreasing
distance trace from 0 to `totalDist` over at least two points and random draws in [0,1), the
raw speed at every index is at least `avgSpeedTarget * 0.98 * 0.94`, hence strictly positive,
and `computeSamples` returns samples whose reported speed is strictly positive. -/
theorem computeSamples_speed_pos [FloorRing K] (M : MathFns K) (hT : M.TrigLawful)
    (allPoints : List (Point K)) (distances : List K) (totalDist pace hrRest hrMax : K)
    (rnd : ℕ → K) (hn : 2 ≤ allPoints.length) (_hlen : distances.length = allPoints.length)
    (_h0 : distances.getD 0 0 = 0)
    (_hmono : ∀ i, i + 1 < distances.length → distances.getD i 0 ≤ distances.getD (i + 1) 0)
    (_hlast : distances.getLast? = some totalDist) (hpos : 0 < totalDist) (hpace : 0 < pace)
    (hrnd : ∀ k, 0 ≤ rnd k ∧ rnd k < 1) :
    (∀ i, avgSpeedTarget totalDist pace * 0.98 * 0.94 ≤
        instSpeedRaw M distances totalDist pace rnd i ∧
      0 < instSpeedRaw M distances totalDist pace rnd i) ∧
    ∃ r, computeSamples M allPoints distances totalDist pace hrRest hrMax rnd = some r ∧
      ∀ s ∈ r.samples, 0 < s.speed := by
  have hne : allPoints ≠ [] := by
    intro h; rw [h] at hn; simp at hn
  refine ⟨fun i => ⟨instSpeedRaw_ge M hT distances totalDist pace rnd i hpos hpace (hrnd 0).1,
    instSpeedRaw_pos M hT distances totalDist pace rnd i hpos hpace (hrnd 0).1⟩, ?_⟩
  obtain ⟨r, hr, hl, _, hidx⟩ :=
    computeSamples_getElem? M allPoints distances totalDist pace hrRest hrMax rnd hne
  refine ⟨r, hr, fun s hs => ?_⟩
  obtain ⟨k, hk, rfl⟩ := List.getElem_of_mem hs
  have hk2 : k < allPoints.length := by rw [← hl]; exact hk
  have h1 := hidx k _ (List.getElem?_eq_getElem hk2)
  rw [List.getElem?_eq_getElem hk] at h1
  rw [Option.some.inj h1]
  exact div_pos (instSpeedRaw_pos M hT distances totalDist pace rnd k hpos hpace (hrnd 0).1)
    (scale_pos M distances totalDist pace rnd _ hpos hpace)

/-- Witness for C16 on the real functions: two points 1000 metres apart at 360 s/km. -/
theorem computeSamples_speed_pos_witness :
    OnReals fun M =>
      (∀ i, avgSpeedTarget (1000 : ℝ) 360 * 0.98 * 0.94 ≤
          instSpeedRaw M [0, 1000] 1000 360 (fun _ => 0) i ∧
        0 < instSpeedRaw M [0, 1000] 1000 360 (fun _ => 0) i) ∧
      ∃ r, computeSamples M [⟨0, 0⟩, ⟨0, 1⟩] [0, 1000] 1000 360 60 180 (fun _ => 0) = some r ∧
        ∀ s ∈ r.samples, 0 < s.speed :=
  computeSamples_speed_pos _ real_trigLawful [⟨0, 0⟩, ⟨0, 1⟩] [0, 1000] 1000 360 60 180
    (fun _ => 0) (by simp) (by simp) (by simp)
    (by
      intro i hi
      have : i = 0 := by simp at hi; omega
      subst this; simp)
    (by simp) (by norm_num) (by norm_num) (by intro k; norm_num)

/-- Claim C17 (scaled speed is consistent with scaled time): with `totalDist > 0`, a pace
above 0, a non-decreasing distance trace and random draws in [0,1), `computeSamples` returns,
and for every index `i ≥ 1` the reported speed of sample `i` times the time elapsed since
sample `i - 1` equals the distance covered between the two samples. -/
theorem computeSamples_speed_time [FloorRing K] (M : MathFns K) (hT : M.TrigLawful)
    (allPoints : List (Point K)) (distances : List K) (totalDist pace hrRest hrMax : K)
    (rnd : ℕ → K) (hne : allPoints ≠ [])
    (_hmono : ∀ i, i + 1 < distances.length → distances.getD i 0 ≤ distances.getD (i + 1) 0)
    (hpos : 0 < totalDist) (hpace : 0 < pace) (hrnd : ∀ k, 0 ≤ rnd k ∧ rnd k < 1) :
    ∃ r, computeSamples M allPoints distances totalDist pace hrRest hrMax rnd = some r ∧
      ∀ i s t, r.samples[i]? = some s → r.samples[i + 1]? = some t →
        t.speed * (t.timeSec - s.timeSec) = t.distance - s.distance := by
  obtain ⟨r, hr, hl, _, hidx⟩ :=
    computeSamples_getElem? M allPoints distances totalDist pace hrRest hrMax rnd hne
  refine ⟨r, hr, fun i s t hs ht => ?_⟩
  have hi1 : i + 1 < allPoints.length := by
    rw [← hl]
    by_contra hcon
    rw [List.getElem?_eq_none (by omega)] at ht
    exact Option.noConfusion ht
  have hi0 : i < allPoints.length := by omega
  rw [hidx i _ (List.getElem?_eq_getElem hi0)] at hs
  rw [hidx (i + 1) _ (List.getElem?_eq_getElem hi1)] at ht
  rw [← Option.some.inj hs, ← Option.some.inj ht]
  exact sampleAt_speed_step M distances totalDist pace hrRest hrMax rnd _ i _ _ hpos hpace
    (instSpeedRaw_pos M hT distances totalDist pace rnd (i + 1) hpos hpace (hrnd 0).1)

/-- Witness for C17 on the real functions: three points, 400 and 600 metres apart. -/
theorem computeSamples_speed_time_witness :
    OnReals fun M =>
      ∃ r, computeSamples M [⟨0, 0⟩, ⟨0, 1⟩, ⟨0, 2⟩] [0, 400, 1000] 1000 360 60 180
          (fun _ => 0) = some r ∧
        ∀ i s t, r.samples[i]? = some s → r.samples[i + 1]? = some t →
          t.speed * (t.timeSec - s.timeSec) = t.distance - s.distance :=
  computeSamples_speed_time _ real_trigLawful [⟨0, 0⟩, ⟨0, 1⟩, ⟨0, 2⟩] [0, 400, 1000] 1000 360
    60 180 (fun _ => 0) (by simp)
    (by
      intro i hi
      have : i = 0 ∨ i = 1 := by simp at hi; omega
      rcases this with rfl | rfl <;> norm_num)
    (by norm_num) (by norm_num) (by intro k; norm_num)

end Speed

end FitGenerator

namespace FitGenerator

open CONSTANTS

section Encoding

variable {K : Type} [LinearOrderedField K] [FloorRing K]

/-! ## Semicircles -/

theorem jsRound_floor_bounds (lo hi : ℤ) (x : K) (h1 : (lo : K) ≤ x) (h2 : x ≤ (hi : K)) :
    lo ≤ ⌊x + 1 / 2⌋ ∧ ⌊x + 1 / 2⌋ ≤ hi := by
  constructor
  · rw [Int.le_floor]; linarith
  · rw [← Int.lt_add_one_iff, Int.floor_lt]; push_cast; linarith

theorem toSemicircles_eq (deg : K) : toSemicircles deg = jsRound (deg * 2 ^ 31 / 180) := by
  unfold toSemicircles SEMICIRCLE_FACTOR
  congr 1
  norm_num
  ring

/-- Claim C12, amended (semicircle encoding): for a latitude in [-90, 90] and a longitude in
[-180, 180], `toSemicircles(deg)` is `round(deg * 2^31 / 180)`; for the latitude this integer
lies in [-2^30, 2^30], a signed 32-bit value; for the longitude it lies in [-2^31, 2^31], it
is at most 2^31 - 1 when `lng * 2^31 / 180 + 1/2 < 2^31`, and it is 2^31 at `lng = 180`. -/
theorem toSemicircles_range (lat lng : K) (hlat1 : -90 ≤ lat) (hlat2 : lat ≤ 90)
    (hlng1 : -180 ≤ lng) (hlng2 : lng ≤ 180) :
    toSemicircles lat = jsRound (lat * 2 ^ 31 / 180) ∧
    toSemicircles lng = jsRound (lng * 2 ^ 31 / 180) ∧
    (∃ z : ℤ, toSemicircles lat = (z : K) ∧ -2 ^ 30 ≤ z ∧ z ≤ 2 ^ 30) ∧
    ∃ z : ℤ, toSemicircles lng = (z : K) ∧ -2 ^ 31 ≤ z ∧ z ≤ 2 ^ 31 ∧
      (lng * 2 ^ 31 / 180 + 1 / 2 < 2 ^ 31 → z ≤ 2 ^ 31 - 1) ∧
      (lng = 180 → z = 2 ^ 31) := by
  refine ⟨toSemicircles_eq lat, toSemicircles_eq lng, ?_, ?_⟩
  · rw [toSemicircles_eq]
    have hb := jsRound_floor_bounds (-2 ^ 30) (2 ^ 30) (lat * 2 ^ 31 / 180)
      (by push_cast; linarith) (by push_cast; linarith)
    exact ⟨_, rfl, hb.1, hb.2⟩
  · rw [toSemicircles_eq]
    have hb := jsRound_floor_bounds (-2 ^ 31) (2 ^ 31) (lng * 2 ^ 31 / 180)
      (by push_cast; linarith) (by push_cast; linarith)
    refine ⟨_, rfl, hb.1, hb.2, ?_, ?_⟩
    · intro h
      have : ⌊lng * 2 ^ 31 / 180 + 1 / 2⌋ < 2 ^ 31 := by
        rw [Int.floor_lt]; push_cast; norm_num at h ⊢; exact h
      omega
    · intro h
      rw [h, Int.floor_eq_iff]
      push_cast
      constructor <;> norm_num

/-- Witness for C12: latitude 45 and longitude 90, over the rationals. -/
theorem toSemicircles_range_witness :
    toSemicircles (45 : ℚ) = jsRound ((45 : ℚ) * 2 ^ 31 / 180) ∧
    toSemicircles (90 : ℚ) = jsRound ((90 : ℚ) * 2 ^ 31 / 180) ∧
    (∃ z : ℤ, toSemicircles (45 : ℚ) = (z : ℚ) ∧ -2 ^ 30 ≤ z ∧ z ≤ 2 ^ 30) ∧
    ∃ z : ℤ, toSemicircles (90 : ℚ) = (z : ℚ) ∧ -2 ^ 31 ≤ z ∧ z ≤ 2 ^ 31 ∧
      ((90 : ℚ) * 2 ^ 31 / 180 + 1 / 2 < 2 ^ 31 → z ≤ 2 ^ 31 - 1) ∧
      ((90 : ℚ) = 180 → z = 2 ^ 31) :=
  toSemicircles_range 45 90 (by norm_num) (by norm_num) (by norm_num) (by norm_num)

/-- Counterexample to C12 as stated: longitude 180 is encoded as 2^31 = 2147483648, which is
above the largest signed 32-bit value 2^31 - 1. -/
theorem toSemicircles_180_overflows :
    (-180 : ℚ) ≤ 180 ∧ (180 : ℚ) ≤ 180 ∧
    toSemicircles (180 : ℚ) = 2147483648 ∧
    ¬ toSemicircles (180 : ℚ) ≤ 2 ^ 31 - 1 := by
  have h : toSemicircles (180 : ℚ) = 2147483648 := by
    have hf : ⌊(180 : ℚ) * (2147483648 / 180) + 1 / 2⌋ = 2147483648 := by
      rw [Int.floor_eq_iff]
      constructor <;> norm_num
    simp only [toSemicircles, jsRound, SEMICIRCLE_FACTOR, hf]
    norm_num
  refine ⟨by norm_num, le_refl _, h, ?_⟩
  rw [h]
  norm_num

/-! ## Dates and the record stream -/

end Encoding

end FitGenerator

namespace FitGenerator

open CONSTANTS

section Params

variable {K : Type} [LinearOrderedField K] [FloorRing K]

/-! ## Activity parameters -/

/-- Claim C14, the code at the failing inputs: a pace of `Infinity` is returned as it is, not
replaced by 360, and a lap count of 0.5 is returned as 0, below the minimum 1. -/
theorem parseActivityParams_infinite_pace_zero_laps :
    (parseActivityParams (⟨some "2024-01-01T00:00:00.000Z", some [⟨0, 0⟩, ⟨0, 1⟩],
      .posInf, .nan, .nan, .fin (1 / 2), .nan⟩ : Body ℚ)).paceSecondsPerKm = .posInf ∧
    (parseActivityParams (⟨some "2024-01-01T00:00:00.000Z", some [⟨0, 0⟩, ⟨0, 1⟩],
      .posInf, .nan, .nan, .fin (1 / 2), .nan⟩ : Body ℚ)).laps = 0 := by
  have hf : ⌊(1 / 2 : ℚ)⌋ = 0 := by
    rw [Int.floor_eq_iff]; constructor <;> norm_num
  constructor
  · simp [parseActivityParams, JsNum.gt]
  · simp only [parseActivityParams, JsNum.isFinite, JsNum.gt, JsNum.finOr, jsFloor,
      LAP_MIN_COUNT, hf]
    norm_num

theorem parseActivityParams_hrRest (body : Body K) :
    (∀ x, body.hrRest = .fin x → (parseActivityParams body).hrRestVal = x) ∧
    (body.hrRest.isFinite = false → (parseActivityParams body).hrRestVal = 60) := by
  constructor
  · intro x hx
    simp [parseActivityParams, hx, JsNum.isFinite, JsNum.finOr]
  · intro h
    simp [parseActivityParams, h, REST_DEFAULT]

theorem parseActivityParams_hrMax (body : Body K) :
    (∀ x, body.hrMax = .fin x → (parseActivityParams body).hrMaxVal = x) ∧
    (body.hrMax.isFinite = false → (parseActivityParams body).hrMaxVal = 180) := by
  constructor
  · intro x hx
    simp [parseActivityParams, hx, JsNum.isFinite, JsNum.finOr]
  · intro h
    simp [parseActivityParams, h, MAX_DEFAULT]

theorem parseActivityParams_variant (body : Body K) :
    (∃ z : ℤ, (parseActivityParams body).variant = (z : K)) ∧
    (∀ x, body.variantIndex = .fin x → 1 ≤ x →
      ∃ z : ℤ, (parseActivityParams body).variant = (z : K) ∧ 1 ≤ z) ∧
    ((body.variantIndex.isFinite && body.variantIndex.gt 0) = false →
      (parseActivityParams body).variant = 1) := by
  refine ⟨?_, ?_, ?_⟩
  · by_cases h : (body.variantIndex.isFinite && body.variantIndex.gt 0) = true
    · exact ⟨⌊body.variantIndex.finOr 1⌋, by simp [parseActivityParams, h, jsFloor]⟩
    · exact ⟨1, by simp [parseActivityParams, h]⟩
  · intro x hx h1
    have hpos : (0 : K) < x := lt_of_lt_of_le one_pos h1
    refine ⟨⌊x⌋, by simp [parseActivityParams, hx, JsNum.isFinite, JsNum.gt, JsNum.finOr,
      jsFloor, hpos], ?_⟩
    rw [Int.le_floor]; exact_mod_cast h1
  · intro h
    simp [parseActivityParams, h]

/-- Claim C15, amended (heart-rate parameters are passed through): for every request that
passes `validateRequest`, the `hrRest` and `hrMax` handed on by `parseActivityParams` are the
supplied values when these are finite and the defaults 60 and 180 otherwise, with no check
that they are integers or that `hrRest < hrMax`; the variant is an integer, at least 1 when
the supplied `variantIndex` is at least 1, and 1 when it is absent, not finite or not
positive. -/
theorem parseActivityParams_heartRate_passthrough (parseDate : String → Option ℤ)
    (body : Body K) (d : ℤ) (_hv : validateRequest parseDate body = .valid d) :
    ((∀ x, body.hrRest = .fin x → (parseActivityParams body).hrRestVal = x) ∧
      (body.hrRest.isFinite = false → (parseActivityParams body).hrRestVal = 60)) ∧
    ((∀ x, body.hrMax = .fin x → (parseActivityParams body).hrMaxVal = x) ∧
      (body.hrMax.isFinite = false → (parseActivityParams body).hrMaxVal = 180)) ∧
    (∃ z : ℤ, (parseActivityParams body).variant = (z : K)) ∧
    (∀ x, body.variantIndex = .fin x → 1 ≤ x →
      ∃ z : ℤ, (parseActivityParams body).variant = (z : K) ∧ 1 ≤ z) ∧
    ((body.variantIndex.isFinite && body.variantIndex.gt 0) = false →
      (parseActivityParams body).variant = 1) :=
  ⟨parseActivityParams_hrRest body, parseActivityParams_hrMax body,
    parseActivityParams_variant body⟩

/-- Witness for C15: a request with `hrRest` 55, no `hrMax` and variant 2, over the
rationals. -/
theorem parseActivityParams_heartRate_passthrough_witness :
    ((∀ x, (.fin 55 : JsNum ℚ) = .fin x →
        (parseActivityParams (⟨some "2024-01-01T00:00:00.000Z", some [⟨0, 0⟩, ⟨0, 1⟩],
          .fin 360, .fin 55, .nan, .fin 1, .fin 2⟩ : Body ℚ)).hrRestVal = x) ∧
      ((.fin 55 : JsNum ℚ).isFinite = false →
        (parseActivityParams (⟨some "2024-01-01T00:00:00.000Z", some [⟨0, 0⟩, ⟨0, 1⟩],
          .fin 360, .fin 55, .nan, .fin 1, .fin 2⟩ : Body ℚ)).hrRestVal = 60)) ∧
    ((∀ x, (.nan : JsNum ℚ) = .fin x →
        (parseActivityParams (⟨some "2024-01-01T00:00:00.000Z", some [⟨0, 0⟩, ⟨0, 1⟩],
          .fin 360, .fin 55, .nan, .fin 1, .fin 2⟩ : Body ℚ)).hrMaxVal = x) ∧
      ((.nan : JsNum ℚ).isFinite = false →
        (parseActivityParams (⟨some "2024-01-01T00:00:00.000Z", some [⟨0, 0⟩, ⟨0, 1⟩],
          .fin 360, .fin 55, .nan, .fin 1, .fin 2⟩ : Body ℚ)).hrMaxVal = 180)) ∧
    (∃ z : ℤ, (parseActivityParams (⟨some "2024-01-01T00:00:00.000Z", some [⟨0, 0⟩, ⟨0, 1⟩],
        .fin 360, .fin 55, .nan, .fin 1, .fin 2⟩ : Body ℚ)).variant = (z : ℚ)) ∧
    (∀ x, (.fin 2 : JsNum ℚ) = .fin x → 1 ≤ x →
      ∃ z : ℤ, (parseActivityParams (⟨some "2024-01-01T00:00:00.000Z", some [⟨0, 0⟩, ⟨0, 1⟩],
        .fin 360, .fin 55, .nan, .fin 1, .fin 2⟩ : Body ℚ)).variant = (z : ℚ) ∧ 1 ≤ z) ∧
    (((.fin 2 : JsNum ℚ).isFinite && (.fin 2 : JsNum ℚ).gt 0) = false →
      (parseActivityParams (⟨some "2024-01-01T00:00:00.000Z", some [⟨0, 0⟩, ⟨0, 1⟩],
        .fin 360, .fin 55, .nan, .fin 1, .fin 2⟩ : Body ℚ)).variant = 1) :=
  parseActivityParams_heartRate_passthrough (fun _ => some 0)
    (⟨some "2024-01-01T00:00:00.000Z", some [⟨0, 0⟩, ⟨0, 1⟩],
      .fin 360, .fin 55, .nan, .fin 1, .fin 2⟩ : Body ℚ) 0
    (validateRequest_valid _ _ "2024-01-01T00:00:00.000Z" 0 [⟨0, 0⟩, ⟨0, 1⟩] rfl (by decide)
      rfl (by simp) rfl)

/-- Counterexample to C15 as stated: a request with `hrRest` 200 and `hrMax` 100 passes
`validateRequest`, and `parseActivityParams` hands on 200 and 100, so `hrRest < hrMax`
fails. -/
theorem heartRate_order_not_validated :
    validateRequest (fun _ => some 0)
      (⟨some "2024-01-01T00:00:00.000Z", some [⟨0, 0⟩, ⟨0, 1⟩],
        .fin 360, .fin 200, .fin 100, .fin 1, .fin 1⟩ : Body ℚ) = .valid 0 ∧
    (parseActivityParams (⟨some "2024-01-01T00:00:00.000Z", some [⟨0, 0⟩, ⟨0, 1⟩],
      .fin 360, .fin 200, .fin 100, .fin 1, .fin 1⟩ : Body ℚ)).hrRestVal = 200 ∧
    (parseActivityParams (⟨some "2024-01-01T00:00:00.000Z", some [⟨0, 0⟩, ⟨0, 1⟩],
      .fin 360, .fin 200, .fin 100, .fin 1, .fin 1⟩ : Body ℚ)).hrMaxVal = 100 ∧
    ¬ (parseActivityParams (⟨some "2024-01-01T00:00:00.000Z", some [⟨0, 0⟩, ⟨0, 1⟩],
        .fin 360, .fin 200, .fin 100, .fin 1, .fin 1⟩ : Body ℚ)).hrRestVal <
      (parseActivityParams (⟨some "2024-01-01T00:00:00.000Z", some [⟨0, 0⟩, ⟨0, 1⟩],
        .fin 360, .fin 200, .fin 100, .fin 1, .fin 1⟩ : Body ℚ)).hrMaxVal := by
  have h1 := (parseActivityParams_hrRest (⟨some "2024-01-01T00:00:00.000Z",
    some [⟨0, 0⟩, ⟨0, 1⟩], .fin 360, .fin 200, .fin 100, .fin 1, .fin 1⟩ : Body ℚ)).1 200 rfl
  have h2 := (parseActivityParams_hrMax (⟨some "2024-01-01T00:00:00.000Z",
    some [⟨0, 0⟩, ⟨0, 1⟩], .fin 360, .fin 200, .fin 100, .fin 1, .fin 1⟩ : Body ℚ)).1 100 rfl
  refine ⟨validateRequest_valid _ _ "2024-01-01T00:00:00.000Z" 0 [⟨0, 0⟩, ⟨0, 1⟩] rfl
    (by decide) rfl (by simp) rfl, h1, h2, ?_⟩
  rw [h1, h2]
  norm_num

/-! ## Lap noise -/

theorem flatten_map_range_length {α : Type} (f : ℕ → List α) (m n : ℕ)
    (hlen : ∀ i, (f i).length = m) : ((List.range n).map f).flatten.length = n * m := by
  induction n with
  | zero => simp
  | succ n ih =>
    rw [List.range_succ, List.map_append, List.flatten_append, List.length_append, ih]
    simp [hlen, Nat.succ_mul]

theorem flatten_map_range_getElem? {α : Type} (f : ℕ → List α) (m n k j : ℕ)
    (hlen : ∀ i, (f i).length = m) (hk : k < n) (hj : j < m) :
    ((List.range n).map f).flatten[k * m + j]? = (f k)[j]? := by
  induction n with
  | zero => omega
  | succ n ih =>
    rw [List.range_succ, List.map_append, List.flatten_append]
    have hl := flatten_map_range_length f m n hlen
    by_cases hkn : k < n
    · have hlt : k * m + j < ((List.range n).map f).flatten.length := by
        rw [hl]
        calc k * m + j < k * m + m := by omega
          _ = (k + 1) * m := by ring
          _ ≤ n * m := Nat.mul_le_mul_right m hkn
      rw [List.getElem?_append_left hlt]
      exact ih hkn
    · have hkeq : k = n := by omega
      subst hkeq
      rw [List.getElem?_append_right (by rw [hl]; omega), hl]
      simp

theorem lapIterations_natCast (n : ℕ) (hn : 0 < n) : lapIterations (n : K) = n := by
  have h : (0 : K) < (n : K) := by exact_mod_cast hn
  simp [lapIterations, usedLaps, h]

/-- Claim C11 (per-lap noise): for an integer lap count above 1 and random draws in [0,1),
`computeRoutePointsWithNoise` returns lap count times `|base|` points, and every lap `k` has
one pair of offsets, of magnitude `sqrt(offLat^2 + offLon^2)` in [5, 10], such that the
`j`-th point of the lap is `offsetPointMeters` of `base[j]` with that pair: latitude plus
`offLat / 111320`, longitude plus `offLon / (111320 * cos(lat * π / 180))`. -/
theorem computeRoutePointsWithNoise_per_lap (M : MathFns K) (hT : M.TrigLawful)
    (basePoints : List (Point K)) (lapCount : ℕ) (rnd : ℕ → K) (hlaps : 1 < lapCount)
    (hrnd : ∀ k, 0 ≤ rnd k ∧ rnd k < 1) :
    (computeRoutePointsWithNoise M basePoints (lapCount : K) rnd).length =
      lapCount * basePoints.length ∧
    ∀ k, k < lapCount → ∃ offsetLatMeters offsetLonMeters : K,
      5 ≤ M.sqrt (offsetLatMeters * offsetLatMeters + offsetLonMeters * offsetLonMeters) ∧
      M.sqrt (offsetLatMeters * offsetLatMeters + offsetLonMeters * offsetLonMeters) ≤ 10 ∧
      ∀ (j : ℕ) (p : Point K), basePoints[j]? = some p →
        (computeRoutePointsWithNoise M basePoints (lapCount : K) rnd)[
            k * basePoints.length + j]? =
          some (offsetPointMeters M p offsetLatMeters offsetLonMeters) ∧
        (offsetPointMeters M p offsetLatMeters offsetLonMeters).lat =
          p.lat + offsetLatMeters / 111320 ∧
        (offsetPointMeters M p offsetLatMeters offsetLonMeters).lng =
          p.lng + offsetLonMeters / (111320 * M.cos (p.lat * M.pi / 180)) := by
  have hpos : 0 < lapCount := by omega
  have hused : usedLaps (lapCount : K) ≠ 1 := by
    have h0 : (0 : K) < (lapCount : K) := by exact_mod_cast hpos
    have h1 : ((lapCount : K)) ≠ 1 := by
      have : (1 : K) < (lapCount : K) := by exact_mod_cast hlaps
      exact ne_of_gt this
    simpa [usedLaps, h0] using h1
  have hlap : ∀ i, (noisyLap M basePoints (lapCount : K) rnd i).length = basePoints.length := by
    intro i; simp [noisyLap]
  unfold computeRoutePointsWithNoise
  rw [lapIterations_natCast lapCount hpos]
  refine ⟨flatten_map_range_length _ _ _ hlap, fun k hk => ?_⟩
  have hr := noiseRadius_bounds rnd (2 * k) (hrnd (2 * k))
  have hmag := noiseOffset_magnitude M hT
    (NOISE_RADIUS_MIN + rnd (2 * k) * (NOISE_RADIUS_MAX - NOISE_RADIUS_MIN))
    (rnd (2 * k + 1) * M.pi * 2) (le_trans (by norm_num) hr.1)
  refine ⟨(NOISE_RADIUS_MIN + rnd (2 * k) * (NOISE_RADIUS_MAX - NOISE_RADIUS_MIN)) *
      M.cos (rnd (2 * k + 1) * M.pi * 2),
    (NOISE_RADIUS_MIN + rnd (2 * k) * (NOISE_RADIUS_MAX - NOISE_RADIUS_MIN)) *
      M.sin (rnd (2 * k + 1) * M.pi * 2), ?_, ?_, ?_⟩
  · rw [hmag]; exact hr.1
  · rw [hmag]; exact hr.2
  · intro j p hp
    have hj : j < basePoints.length := by
      by_contra hcon
      rw [List.getElem?_eq_none (by omega)] at hp
      exact Option.noConfusion hp
    refine ⟨?_, rfl, rfl⟩
    rw [flatten_map_range_getElem? _ _ _ k j hlap hk hj]
    simp [noisyLap, hp, hused]

/-- Witness for C11 on the real functions: a two-point base route, two laps. -/
theorem computeRoutePointsWithNoise_per_lap_witness :
    OnReals fun M =>
      (computeRoutePointsWithNoise M [⟨0, 0⟩, ⟨0, 1⟩] ((2 : ℕ) : ℝ) (fun _ => 0)).length =
        2 * [(⟨0, 0⟩ : Point ℝ), ⟨0, 1⟩].length ∧
      ∀ k, k < 2 → ∃ offsetLatMeters offsetLonMeters : ℝ,
        5 ≤ M.sqrt (offsetLatMeters * offsetLatMeters + offsetLonMeters * offsetLonMeters) ∧
        M.sqrt (offsetLatMeters * offsetLatMeters + offsetLonMeters * offsetLonMeters) ≤ 10 ∧
        ∀ (j : ℕ) (p : Point ℝ), [(⟨0, 0⟩ : Point ℝ), ⟨0, 1⟩][j]? = some p →
          (computeRoutePointsWithNoise M [⟨0, 0⟩, ⟨0, 1⟩] ((2 : ℕ) : ℝ) (fun _ => 0))[
              k * [(⟨0, 0⟩ : Point ℝ), ⟨0, 1⟩].length + j]? =
            some (offsetPointMeters M p offsetLatMeters offsetLonMeters) ∧
          (offsetPointMeters M p offsetLatMeters offsetLonMeters).lat =
            p.lat + offsetLatMeters / 111320 ∧
          (offsetPointMeters M p offsetLatMeters offsetLonMeters).lng =
            p.lng + offsetLonMeters / (111320 * M.cos (p.lat * M.pi / 180)) :=
  computeRoutePointsWithNoise_per_lap _ real_trigLawful [⟨0, 0⟩, ⟨0, 1⟩] 2 (fun _ => 0)
    (by norm_num) (by intro k; norm_num)

end Params

end FitGenerator
